import Mathlib

/-!
# BMP180 altimeter (`altimeter.c`): shallow embedding and checked properties

The C program polls a BMP180 pressure sensor over I2C through the wiringPi
library.  This development embeds its functions as Lean functions:

* C `int` / `unsigned int` values are mathematical integers that every
  operation reduces back into the 32-bit range (two's complement for `int`,
  also where a signed result overflows or a negative value is shifted left;
  `>>` on an `int` is the arithmetic shift);
* the `double` returned by `getTemperature` is carried as an exact rational;
  the `double` arithmetic of `getAltitude` rounds every operation to binary64,
  and the library function `pow` is a parameter;
* `main` takes the handle returned by `wiringPiI2CSetup` as a parameter and is
  observed for a bounded number of iterations of its loop;
* the I2C device is an arbitrary deterministic responder, and the calls made
  on it (`wiringPiI2CWriteReg8`, `usleep`, `wiringPiI2CReadReg8`) are recorded
  in a trace;
* operations whose behaviour is undefined in C (division by zero, a shift
  count outside `0..31`) end the run with an `Except.error`.
-/

namespace Altimeter

/-! ## Machine integers -/

/-- Conversion to C `int` (32-bit two's complement). -/
def toS32 (x : Int) : Int := (x + 2147483648) % 4294967296 - 2147483648

/-- Conversion to C `unsigned int` (32 bits). -/
def toU32 (x : Int) : Int := x % 4294967296

/-- Conversion to `int16_t` / `short`. -/
def toS16 (x : Int) : Int := (x + 32768) % 65536 - 32768

/-- Conversion to `uint16_t`. -/
def toU16 (x : Int) : Int := x % 65536

/-- Conversion to `uint8_t`. -/
def toU8 (x : Int) : Int := x % 256

/-- Addition of two `int` operands, wrapping. -/
def add32 (a b : Int) : Int := toS32 (a + b)

/-- Subtraction of two `int` operands, wrapping. -/
def sub32 (a b : Int) : Int := toS32 (a - b)

/-- Multiplication of two `int` operands, wrapping. -/
def mul32 (a b : Int) : Int := toS32 (a * b)

/-- The operator `<<` on an `int` with a shift count in `0..31`, wrapping. -/
def shl32 (x : Int) (n : Nat) : Int := toS32 (x * 2 ^ n)

/-- The operator `>>` on an `int`: arithmetic shift (rounds towards minus
infinity). -/
def sar (x : Int) (n : Nat) : Int := Int.shiftRight x n

/-- Subtraction of two `unsigned int` operands, wrapping. -/
def subU32 (a b : Int) : Int := toU32 (a - b)

/-- Multiplication of two `unsigned int` operands, wrapping. -/
def mulU32 (a b : Int) : Int := toU32 (a * b)

/-- The operator `<<` on an `unsigned int`, wrapping. -/
def shlU32 (x : Int) (n : Nat) : Int := toU32 (x * 2 ^ n)

/-- The operator `>>` on an `unsigned int`: logical shift. -/
def shrU32 (x : Int) (n : Nat) : Int := Int.shiftRight (toU32 x) n

/-- The bitwise or of the 32-bit patterns of two operands. -/
def orBits (a b : Int) : Nat := Nat.lor (toU32 a).toNat (toU32 b).toNat

/-- The operator `|` on two `int` operands. -/
def or32 (a b : Int) : Int := toS32 (orBits a b)

/-- The operator `|` on two `unsigned int` operands. -/
def orU32 (a b : Int) : Int := orBits a b

/-- Operations of `altimeter.c` whose behaviour C leaves undefined.  None of
them is reported to a caller: every function of the file returns a plain
`int`, `unsigned int`, `uint16_t`, `double` or `void`. -/
inductive UB where
  /-- The operator `/` was executed with divisor zero. -/
  | divisionByZero
  /-- The operator `/` was executed on `INT_MIN` and `-1`. -/
  | divisionOverflow
  /-- A shift was executed with a count outside `0..31`. -/
  | shiftCount
  deriving DecidableEq, Repr

deriving instance DecidableEq for Except

/-- The operator `/` on two `int` operands: truncation towards zero. -/
def cDiv (a b : Int) : Except UB Int :=
  if b = 0 then .error .divisionByZero
  else if a = -2147483648 ∧ b = -1 then .error .divisionOverflow
  else .ok (Int.tdiv a b)

/-- The operator `/` on two `unsigned int` operands. -/
def cDivU (a b : Int) : Except UB Int :=
  if b = 0 then .error .divisionByZero else .ok (a / b)

/-- Run-time check of a shift count: C defines a 32-bit shift only for counts
in `0..31`. -/
def shiftCount (c : Int) : Except UB Nat :=
  if 0 ≤ c ∧ c < 32 then .ok c.toNat else .error .shiftCount

/-! ## The I2C bus (wiringPi) -/

/-- Calls made on the outside world. -/
inductive Event where
  /-- The call `wiringPiI2CWriteReg8(fd, reg, val)`. -/
  | write (reg val : Int)
  /-- The call `wiringPiI2CReadReg8(fd, reg)`. -/
  | read (reg : Int)
  /-- The call `usleep(us)`. -/
  | sleep (us : Int)
  deriving DecidableEq, Repr

/-- The device behind the handle `fd`.  `respond h reg` is what
`wiringPiI2CReadReg8(fd, reg)` returns after the calls `h`: a byte `0..255`,
or `-1` when the transfer fails.  `trace` lists the calls made so far, oldest
first. -/
structure Bus where
  respond : List Event → Int → Int
  trace : List Event

/-- The library call `wiringPiI2CReadReg8(fd, reg)`. -/
def wiringPiI2CReadReg8 (b : Bus) (reg : Int) : Int × Bus :=
  (b.respond b.trace reg, { b with trace := b.trace ++ [Event.read reg] })

/-- The library call `wiringPiI2CWriteReg8(fd, reg, val)`; the source discards
its result. -/
def wiringPiI2CWriteReg8 (b : Bus) (reg val : Int) : Bus :=
  { b with trace := b.trace ++ [Event.write reg val] }

/-- The library call `usleep(us)`. -/
def usleep (b : Bus) (us : Int) : Bus :=
  { b with trace := b.trace ++ [Event.sleep us] }

/-! ## Calibration data -/

/-- Modelled from the spec: the declaration of `struct calibrationData` is in
`altimeter.h`, which is not among the sources.  The spec gives eleven 16-bit
coefficients, `ac4`, `ac5`, `ac6` unsigned and the other eight signed. -/
structure calibrationData where
  ac1 : Int
  ac2 : Int
  ac3 : Int
  ac4 : Int
  ac5 : Int
  ac6 : Int
  b1 : Int
  b2 : Int
  mb : Int
  mc : Int
  md : Int
  deriving DecidableEq, Repr

/-- Every field holds a value of its C type. -/
def calibrationData.wellTyped (c : calibrationData) : Prop :=
  (-32768 ≤ c.ac1 ∧ c.ac1 ≤ 32767) ∧ (-32768 ≤ c.ac2 ∧ c.ac2 ≤ 32767) ∧
  (-32768 ≤ c.ac3 ∧ c.ac3 ≤ 32767) ∧ (0 ≤ c.ac4 ∧ c.ac4 ≤ 65535) ∧
  (0 ≤ c.ac5 ∧ c.ac5 ≤ 65535) ∧ (0 ≤ c.ac6 ∧ c.ac6 ≤ 65535) ∧
  (-32768 ≤ c.b1 ∧ c.b1 ≤ 32767) ∧ (-32768 ≤ c.b2 ∧ c.b2 ≤ 32767) ∧
  (-32768 ≤ c.mb ∧ c.mb ≤ 32767) ∧ (-32768 ≤ c.mc ∧ c.mc ≤ 32767) ∧
  (-32768 ≤ c.md ∧ c.md ≤ 32767)

instance (c : calibrationData) : Decidable c.wellTyped := by
  unfold calibrationData.wellTyped; infer_instance

/-- Modelled from the spec: the register constants `AC1_REG` ... `MD_REG` are
defined in `altimeter.h`, which is not among the sources. -/
structure RegisterMap where
  AC1_REG : Int
  AC2_REG : Int
  AC3_REG : Int
  AC4_REG : Int
  AC5_REG : Int
  AC6_REG : Int
  B1_REG : Int
  B2_REG : Int
  MB_REG : Int
  MC_REG : Int
  MD_REG : Int
  deriving DecidableEq, Repr

/-- Modelled from the spec: the calibration registers, "AC1 at 0xAA, AC2 at
0xAC, ... MD at 0xBE, stepping by 2". -/
def bmp180Registers : RegisterMap :=
  { AC1_REG := 0xAA, AC2_REG := 0xAC, AC3_REG := 0xAE, AC4_REG := 0xB0,
    AC5_REG := 0xB2, AC6_REG := 0xB4, B1_REG := 0xB6, B2_REG := 0xB8,
    MB_REG := 0xBA, MC_REG := 0xBC, MD_REG := 0xBE }

/-! ## The functions of `altimeter.c` -/

/-- `uint16_t read16(int fd, int reg)`.  C does not fix the order in which the
two operands of `|` are evaluated: `hiFirst` is the order the compiler chose. -/
def read16 (hiFirst : Bool) (b : Bus) (reg : Int) : Int × Bus :=
  if hiFirst then
    let (hi, b1) := wiringPiI2CReadReg8 b reg
    let (lo, b2) := wiringPiI2CReadReg8 b1 (add32 reg 1)
    (toU16 (or32 (shl32 hi 8) lo), b2)
  else
    let (lo, b1) := wiringPiI2CReadReg8 b (add32 reg 1)
    let (hi, b2) := wiringPiI2CReadReg8 b1 reg
    (toU16 (or32 (shl32 hi 8) lo), b2)

/-- `void calibrate(int fd)`: the value left in the global `cal`. -/
def calibrate (hiFirst : Bool) (r : RegisterMap) (b : Bus) : calibrationData × Bus :=
  let (ac1, b) := read16 hiFirst b r.AC1_REG
  let (ac2, b) := read16 hiFirst b r.AC2_REG
  let (ac3, b) := read16 hiFirst b r.AC3_REG
  let (ac4, b) := read16 hiFirst b r.AC4_REG
  let (ac5, b) := read16 hiFirst b r.AC5_REG
  let (ac6, b) := read16 hiFirst b r.AC6_REG
  let (b1, b) := read16 hiFirst b r.B1_REG
  let (b2, b) := read16 hiFirst b r.B2_REG
  let (mb, b) := read16 hiFirst b r.MB_REG
  let (mc, b) := read16 hiFirst b r.MC_REG
  let (md, b) := read16 hiFirst b r.MD_REG
  ({ ac1 := toS16 ac1, ac2 := toS16 ac2, ac3 := toS16 ac3,
     ac4 := toU16 ac4, ac5 := toU16 ac5, ac6 := toU16 ac6,
     b1 := toS16 b1, b2 := toS16 b2, mb := toS16 mb, mc := toS16 mc,
     md := toS16 md }, b)

/-- `unsigned int readRawTemperature(int fd)`. -/
def readRawTemperature (hiFirst : Bool) (b : Bus) : Int × Bus :=
  let b := wiringPiI2CWriteReg8 b 0xF4 0x2E
  let b := usleep b 4500
  let (ut, b) := read16 hiFirst b 0xF6
  (toU32 ut, b)

/-- The `switch (OSS)` of `readRawPressure`: the argument of `usleep` for the
four settings that have a `case` label.  The switch has no `default`: for any
other setting no wait is requested. -/
def conversionDelay (oss : Int) : Option Int :=
  if oss = 0 then some 4500
  else if oss = 1 then some 7500
  else if oss = 2 then some 13500
  else if oss = 3 then some 25500
  else none

/-- `unsigned int readRawPressure(int fd)`, with the constant `OSS` as the
parameter `oss`. -/
def readRawPressure (oss : Int) (b : Bus) : Except UB (Int × Bus) :=
  let b := wiringPiI2CWriteReg8 b 0xF4 (add32 0x34 (shl32 oss 6))
  let b :=
    match conversionDelay oss with
    | some us => usleep b us
    | none => b
  let (r1, b) := wiringPiI2CReadReg8 b 0xF6
  let byte1 := toU8 r1
  let (r2, b) := wiringPiI2CReadReg8 b 0xF7
  let byte2 := toU8 r2
  let (r3, b) := wiringPiI2CReadReg8 b 0xF8
  let byte3 := toU8 r3
  match shiftCount (sub32 8 oss) with
  | .error u => .error u
  | .ok c => .ok (shrU32 (orU32 (orU32 (shlU32 byte1 16) (shlU32 byte2 8)) byte3) c, b)

/-- Lines 61-63 of `compensateTemperature`: the value `b5` computed from the
raw temperature `ut`. -/
def compensateTemperatureOf (cal : calibrationData) (ut : Int) : Except UB Int :=
  let x1 := sar (mul32 (sub32 (toS32 ut) cal.ac6) cal.ac5) 15
  match cDiv (shl32 cal.mc 11) (add32 x1 cal.md) with
  | .error u => .error u
  | .ok x2 => .ok (add32 x1 x2)

/-- `int compensateTemperature(int fd)`. -/
def compensateTemperature (hiFirst : Bool) (cal : calibrationData) (b : Bus) :
    Except UB (Int × Bus) :=
  let (ut, b) := readRawTemperature hiFirst b
  match compensateTemperatureOf cal ut with
  | .error u => .error u
  | .ok b5 => .ok (b5, b)

/-- `double getTemperature(int fd)`.  The `double` is carried as the exact
rational `rawTemperature / 10`; the C value is its IEEE-754 rounding. -/
def getTemperature (hiFirst : Bool) (cal : calibrationData) (b : Bus) :
    Except UB (ℚ × Bus) :=
  match compensateTemperature hiFirst cal b with
  | .error u => .error u
  | .ok (b5, b) =>
    let rawTemperature := sar (add32 b5 8) 4
    .ok ((rawTemperature : ℚ) / 10, b)

/-- The right-hand side of line 85 of `getPressure`, an `unsigned int`:
`(b7 < 0x80000000) ? (b7 << 1) / b4 : (b7 / b4) << 1`. -/
def pressureQuotient (b7 b4 : Int) : Except UB Int :=
  if b7 < 0x80000000 then cDivU (shlU32 b7 1) b4
  else (cDivU b7 b4).map (fun q => shlU32 q 1)

/-- Lines 75-90 of `getPressure`: the pressure computed from the raw pressure
`up` and the value `b5` that `compensateTemperature` returned. -/
def getPressureOf (oss : Int) (cal : calibrationData) (up b5 : Int) : Except UB Int :=
  let b6 := sub32 b5 4000
  let x1 := sar (sar (mul32 cal.b2 (mul32 b6 b6)) 12) 11
  let x2 := sar (mul32 cal.ac2 b6) 11
  let x3 := add32 x1 x2
  match shiftCount oss with
  | .error u => .error u
  | .ok s =>
    let b3 := sar (add32 (shl32 (add32 (mul32 cal.ac1 4) x3) s) 2) 2
    let x1 := sar (mul32 cal.ac3 b6) 13
    let x2 := sar (mul32 cal.b1 (sar (mul32 b6 b6) 12)) 16
    let x3 := sar (add32 (add32 x1 x2) 2) 2
    let b4 := shrU32 (mulU32 cal.ac4 (toU32 (add32 x3 32768))) 15
    let b7 := mulU32 (subU32 up b3) (sar 50000 s)
    match pressureQuotient b7 b4 with
    | .error u => .error u
    | .ok q =>
      let p := toS32 q
      let x1 := mul32 (sar p 8) (sar p 8)
      let x1 := sar (mul32 x1 3038) 16
      let x2 := sar (mul32 (-7357) p) 16
      .ok (add32 p (sar (add32 (add32 x1 x2) 3791) 4))

/-- `int getPressure(int fd)`, with the constant `OSS` as the parameter
`oss`. -/
def getPressure (oss : Int) (hiFirst : Bool) (cal : calibrationData) (b : Bus) :
    Except UB (Int × Bus) :=
  match readRawPressure oss b with
  | .error u => .error u
  | .ok (up, b) =>
    match compensateTemperature hiFirst cal b with
    | .error u => .error u
    | .ok (b5, b) =>
      match getPressureOf oss cal up b5 with
      | .error u => .error u
      | .ok p => .ok (p, b)

/-- The constant `OSS` of the source. -/
def OSS : Int := 1

/-! ## `double` arithmetic and the altitude -/

/-- Rounding of a rational to the nearest integer, ties to the even one. -/
def roundEven (m : ℚ) : Int :=
  let f := ⌊m⌋
  if m - f < 1 / 2 then f
  else if 1 / 2 < m - f then f + 1
  else if f % 2 = 0 then f
  else f + 1

/-- Rounding of an exact value to an IEEE-754 binary64 number (53-bit
significand, round to nearest, ties to even).  The exponent range is taken
unbounded: no overflow and no subnormal numbers, which the values of
`getAltitude` for pressures in `1..101325` never meet. -/
def roundDouble (q : ℚ) : ℚ :=
  if q = 0 then 0
  else
    let e := Int.log 2 |q| - 52
    (roundEven (q / 2 ^ e) : ℚ) * 2 ^ e

/-- The operator `/` on two `double` operands, the divisor not zero. -/
def fdiv (a b : ℚ) : ℚ := roundDouble (a / b)

/-- The operator `-` on two `double` operands. -/
def fsub (a b : ℚ) : ℚ := roundDouble (a - b)

/-- The operator `*` on two `double` operands. -/
def fmul (a b : ℚ) : ℚ := roundDouble (a * b)

/-- The first argument of `pow` in line 96: `pressure / 101325.0`. -/
def altitudeBase (pressure : ℚ) : ℚ := fdiv pressure 101325

/-- The second argument of `pow` in line 96: `(1.0 / 5.255)`, the literal
`5.255` being the nearest `double`. -/
def altitudeExponent : ℚ := fdiv 1 (roundDouble (5255 / 1000))

/-- Line 96 of `getAltitude`:
`44330.0 * (1.0 - pow(pressure / 101325.0, (1.0 / 5.255)))`.  The function
`pow` of the C library is not part of the program: it is the parameter `pow`
(on finite `double` values). -/
def getAltitudeOf (pow : ℚ → ℚ → ℚ) (pressure : ℚ) : ℚ :=
  fmul 44330 (fsub 1 (pow (altitudeBase pressure) altitudeExponent))

/-- `double getAltitude(int fd)`, with the constant `OSS` as the parameter
`oss`; the conversion of the `int` pressure to `double` is exact. -/
def getAltitude (pow : ℚ → ℚ → ℚ) (oss : Int) (hiFirst : Bool) (cal : calibrationData)
    (b : Bus) : Except UB (ℚ × Bus) :=
  match getPressure oss hiFirst cal b with
  | .error u => .error u
  | .ok (p, b) => .ok (getAltitudeOf pow (p : ℚ), b)

/-- The three values passed to the `printf` calls of one iteration of the
loop of `main`. -/
structure OutputLine where
  T : ℚ
  P : ℚ
  a : ℚ
  deriving DecidableEq, Repr

/-- The body of the `while` loop of `main` (lines 103-109): the bus and the
lines printed so far, after one iteration. -/
def loopBody (pow : ℚ → ℚ → ℚ) (oss : Int) (hiFirst : Bool) (regs : RegisterMap)
    (b : Bus) (out : List OutputLine) : Except UB (Bus × List OutputLine) :=
  let (cal, b) := calibrate hiFirst regs b
  match getTemperature hiFirst cal b with
  | .error u => .error u
  | .ok (T, b) =>
    match getPressure oss hiFirst cal b with
    | .error u => .error u
    | .ok (P, b) =>
      match getAltitude pow oss hiFirst cal b with
      | .error u => .error u
      | .ok (a, b) => .ok (b, out ++ [{ T := T, P := (P : ℚ), a := a }])

/-- The loop `while (fd > 0) { ... }` of `main`, observed for at most `fuel`
iterations.  The first component of the result tells whether the loop was
left (`fd` is never assigned in the loop, so it is left at once or never). -/
def mainLoop (pow : ℚ → ℚ → ℚ) (oss : Int) (hiFirst : Bool) (regs : RegisterMap)
    (fd : Int) : Nat → Bus → List OutputLine → Except UB (Bool × Bus × List OutputLine)
  | 0, b, out => .ok (decide (¬ fd > 0), b, out)
  | fuel + 1, b, out =>
    if fd > 0 then
      match loopBody pow oss hiFirst regs b out with
      | .error u => .error u
      | .ok (b, out) => mainLoop pow oss hiFirst regs fd fuel b out
    else .ok (true, b, out)

/-- `int main(int arc, char* argv[])`: `fd` is the value returned by
`wiringPiI2CSetup(BMP180_ADDR)`, `b` the device behind it.  The result tells
whether `main` returned within `fuel` iterations, and gives the bus and the
lines printed. -/
def main (pow : ℚ → ℚ → ℚ) (oss : Int) (hiFirst : Bool) (regs : RegisterMap)
    (fd : Int) (fuel : Nat) (b : Bus) : Except UB (Bool × Bus × List OutputLine) :=
  mainLoop pow oss hiFirst regs fd fuel b []

/-! ## Reference data and the formulas of the specification -/

/-- The calibration set of the BMP180 datasheet's worked example. -/
def datasheetCal : calibrationData :=
  { ac1 := 408, ac2 := -72, ac3 := -14383, ac4 := 32741, ac5 := 32757,
    ac6 := 23153, b1 := 6190, b2 := 4, mb := -32768, mc := -8711, md := 2868 }

/-- A calibration set as read from a production BMP085/BMP180 part. -/
def fieldCal : calibrationData :=
  { ac1 := 7911, ac2 := -934, ac3 := -14306, ac4 := 31567, ac5 := 25671,
    ac6 := 18974, b1 := 5498, b2 := 46, mb := -32768, mc := -11075, md := 2432 }

/-- The value last written to the control register `0xF4` in the calls `h`
(`0` when there is none). -/
def lastCommand (h : List Event) : Int :=
  h.foldl (fun acc e =>
    match e with
    | Event.write reg v => if reg = 0xF4 then v else acc
    | _ => acc) 0

/-- A simulated sensor that never fails: the result registers `0xF6..0xF8`
hold the 16-bit temperature code `ut` after the command `0x2E` and the 24-bit
pressure code `up24` after any other command; every other register `reg`
holds `mem reg`. -/
def sensorBus (mem : Int → Int) (ut up24 : Int) : Bus :=
  { respond := fun h reg =>
      if reg = 0xF6 then
        (if lastCommand h = 0x2E then ut / 256 % 256 else up24 / 65536 % 256)
      else if reg = 0xF7 then
        (if lastCommand h = 0x2E then ut % 256 else up24 / 256 % 256)
      else if reg = 0xF8 then
        (if lastCommand h = 0x2E then 0 else up24 % 256)
      else mem reg
    trace := [] }

/-- The datasheet example as a device: temperature code 27898 and, at
oversampling 0, pressure code 23843 (`23843 * 256` in the three result
registers). -/
def datasheetBus : Bus := sensorBus (fun _ => 0) 27898 6103808

/-- The device `datasheetBus` once its pressure conversion has been read. -/
def datasheetBusAfterPressure : Bus :=
  { respond := datasheetBus.respond
    trace := [Event.write 0xF4 0x34, Event.sleep 4500, Event.read 0xF6,
              Event.read 0xF7, Event.read 0xF8] }

/-- A device whose registers hold fixed bytes: every read of `reg` succeeds
and returns `mem reg`. -/
def eepromBus (mem : Int → Int) : Bus := { respond := fun _ reg => mem reg, trace := [] }

/-- The eleven words of the datasheet calibration set, in register order
(`AC1` first), as unsigned 16-bit values. -/
def datasheetWords : List Int :=
  [0x0198, 0xFFB8, 0xC7D1, 0x7FE5, 0x7FF5, 0x5A71, 0x182E, 0x0004, 0x8000, 0xDDF9, 0x0B34]

/-- The calibration EEPROM holding `datasheetWords` from register `0xAA` on,
most significant byte first; every other register reads as 0. -/
def datasheetEeprom (reg : Int) : Int :=
  if 0xAA ≤ reg ∧ reg ≤ 0xBF then
    (datasheetWords.getD ((reg - 0xAA) / 2).toNat 0 / (if reg % 2 = 0 then 256 else 1)) % 256
  else 0

/-- The big-endian 16-bit word that a register file `mem` holds at `reg`
(high byte) and `reg + 1` (low byte, `int` addition). -/
def wordAt (mem : Int → Int) (reg : Int) : Int := 256 * mem reg + mem (add32 reg 1)

/-- The specification's reading of a 16-bit word as two's complement. -/
def asSigned16 (w : Int) : Int := if w < 32768 then w else w - 65536

/-- The calibration set of the zero-divisor example: the datasheet set with
`AC6 = 0`, `AC5 = 32768`, `MD = -100`. -/
def zeroDivisorCal : calibrationData :=
  { datasheetCal with ac5 := 32768, ac6 := 0, md := -100 }

/-- What `calibrate` leaves in `cal` when every register read fails. -/
def allOnesCal : calibrationData :=
  { ac1 := -1, ac2 := -1, ac3 := -1, ac4 := 65535, ac5 := 65535, ac6 := 65535,
    b1 := -1, b2 := -1, mb := -1, mc := -1, md := -1 }

/-- A stand-in for the library function `pow`: the expansion of `x ^ y` to
first order at `x = 1`.  It returns exactly 1 at `x = 1`. -/
def powLinear (x y : ℚ) : ℚ := 1 + y * (x - 1)

/-- The number of temperature conversions (writes of `0x2E` to `0xF4`) started
in the calls `h`. -/
def temperatureConversions (h : List Event) : Nat :=
  (h.filter (fun e => decide (e = Event.write 0xF4 0x2E))).length

/-- The datasheet sensor with its calibration EEPROM. -/
def datasheetSensor : Bus := sensorBus datasheetEeprom 27898 6103808

/-- The datasheet sensor while it warms up: its first temperature conversion
gives the code 27898, every later one the code 27998. -/
def driftingBus : Bus :=
  { respond := fun h reg =>
      if temperatureConversions h ≤ 1 then datasheetSensor.respond h reg
      else (sensorBus datasheetEeprom 27998 6103808).respond h reg
    trace := [] }

/-- The datasheet sensor at sea level: at oversampling 2 its pressure code
`8788608 >> 6 = 137322` compensates to exactly 101325 Pa. -/
def seaLevelBus : Bus := sensorBus (fun _ => 0) 27898 8788608

/-- A device on which every register read fails. -/
def deadBus : Bus := { respond := fun _ _ => -1, trace := [] }

/-- The specification's pressure formula (section 4.3), every operation under
32-bit wraparound; `b4` and `b7` unsigned.  Its first `x1` shifts `b6*b6`
right by 12 before the multiplication by `B2`. -/
def specPressure (oss : Nat) (cal : calibrationData) (rawPressure b5 : Int) : Int :=
  let b6 := sub32 b5 4000
  let x1 := sar (mul32 cal.b2 (sar (mul32 b6 b6) 12)) 11
  let x2 := sar (mul32 cal.ac2 b6) 11
  let x3 := add32 x1 x2
  let b3 := sar (add32 (shl32 (add32 (mul32 cal.ac1 4) x3) oss) 2) 2
  let x1' := sar (mul32 cal.ac3 b6) 13
  let x2' := sar (mul32 cal.b1 (sar (mul32 b6 b6) 12)) 16
  let x3' := sar (add32 (add32 x1' x2') 2) 2
  let b4 := shrU32 (mulU32 cal.ac4 (toU32 (add32 x3' 32768))) 15
  let b7 := mulU32 (subU32 rawPressure b3) (sar 50000 oss)
  let p := toS32 (if b7 < 0x80000000 then shlU32 b7 1 / b4 else shlU32 (b7 / b4) 1)
  let x1'' := mul32 (sar p 8) (sar p 8)
  let x1'' := sar (mul32 x1'' 3038) 16
  let x2'' := sar (mul32 (-7357) p) 16
  add32 p (sar (add32 (add32 x1'' x2'') 3791) 4)

/-- The specification's temperature formula (section 4.3): `b5 = x1 + x2`,
with `x1 = ((rawTemp - AC6) * AC5) >> 15` on 32-bit signed integers and
`x2 = (MC << 11) / (x1 + MD)` truncated towards zero. -/
def specB5 (cal : calibrationData) (rawTemp : Int) : Int :=
  let x1 := sar (toS32 ((rawTemp - cal.ac6) * cal.ac5)) 15
  let x2 := Int.tdiv (cal.mc * 2 ^ 11) (x1 + cal.md)
  x1 + x2

/-- The specification's true temperature, `((b5 + 8) >> 4) / 10.0` degrees. -/
def specTemperature (cal : calibrationData) (rawTemp : Int) : ℚ :=
  ((sar (specB5 cal rawTemp + 8) 4 : Int) : ℚ) / 10

/-- The value is one of the C type `int`. -/
def inS32 (x : Int) : Prop := -2147483648 ≤ x ∧ x ≤ 2147483647

/-- The temperature formula in unbounded integers: `x1` of line 61. -/
def exactX1 (cal : calibrationData) (ut : Int) : Int :=
  sar ((ut - cal.ac6) * cal.ac5) 15

/-- The temperature formula in unbounded integers: `x2` of line 62, the
division truncating towards zero. -/
def exactX2 (cal : calibrationData) (ut : Int) : Int :=
  Int.tdiv (cal.mc * 2 ^ 11) (exactX1 cal ut + cal.md)

/-- The temperature formula in unbounded integers: `b5 = x1 + x2`. -/
def exactB5 (cal : calibrationData) (ut : Int) : Int :=
  exactX1 cal ut + exactX2 cal ut

/-! ## Unfolding lemmas for the bus-reading functions -/

theorem compensateTemperature_eq (hiFirst : Bool) (cal : calibrationData) (b : Bus) :
    compensateTemperature hiFirst cal b =
      (compensateTemperatureOf cal (readRawTemperature hiFirst b).1).map
        (fun b5 => (b5, (readRawTemperature hiFirst b).2)) := by
  unfold compensateTemperature
  rcases readRawTemperature hiFirst b with ⟨ut, b2⟩
  dsimp only
  cases compensateTemperatureOf cal ut <;> rfl

theorem compensateTemperature_of_ok (hiFirst : Bool) (cal : calibrationData) (b : Bus)
    (b5 : Int) (h : compensateTemperatureOf cal (readRawTemperature hiFirst b).1 = .ok b5) :
    compensateTemperature hiFirst cal b = .ok (b5, (readRawTemperature hiFirst b).2) := by
  rw [compensateTemperature_eq, h]; rfl

theorem compensateTemperature_of_error (hiFirst : Bool) (cal : calibrationData) (b : Bus)
    (u : UB) (h : compensateTemperatureOf cal (readRawTemperature hiFirst b).1 = .error u) :
    compensateTemperature hiFirst cal b = .error u := by
  rw [compensateTemperature_eq, h]; rfl

theorem getTemperature_of_ok (hiFirst : Bool) (cal : calibrationData) (b : Bus)
    (b5 : Int) (h : compensateTemperatureOf cal (readRawTemperature hiFirst b).1 = .ok b5) :
    getTemperature hiFirst cal b
      = .ok (((sar (add32 b5 8) 4 : Int) : ℚ) / 10, (readRawTemperature hiFirst b).2) := by
  unfold getTemperature
  rw [compensateTemperature_of_ok hiFirst cal b b5 h]

theorem getTemperature_of_error (hiFirst : Bool) (cal : calibrationData) (b : Bus)
    (u : UB) (h : compensateTemperatureOf cal (readRawTemperature hiFirst b).1 = .error u) :
    getTemperature hiFirst cal b = .error u := by
  unfold getTemperature
  rw [compensateTemperature_of_error hiFirst cal b u h]

theorem getPressure_of_ok (oss : Int) (hiFirst : Bool) (cal : calibrationData)
    (b b1 : Bus) (up b5 p : Int)
    (h1 : readRawPressure oss b = .ok (up, b1))
    (h2 : compensateTemperatureOf cal (readRawTemperature hiFirst b1).1 = .ok b5)
    (h3 : getPressureOf oss cal up b5 = .ok p) :
    getPressure oss hiFirst cal b = .ok (p, (readRawTemperature hiFirst b1).2) := by
  unfold getPressure
  rw [h1]
  dsimp only
  rw [compensateTemperature_of_ok hiFirst cal b1 b5 h2]
  dsimp only
  rw [h3]

/-! ## Known vectors -/

/-- C1: with the datasheet calibration set, on any bus whose pressure
conversion reads as 23843 at oversampling 0 and whose following temperature
conversion reads as 27898, `getPressure` returns exactly 69964 Pa. -/
theorem getPressure_datasheet_vector (hiFirst : Bool) (b b1 : Bus)
    (hup : readRawPressure 0 b = .ok (23843, b1))
    (hut : (readRawTemperature hiFirst b1).1 = 27898) :
    getPressure 0 hiFirst datasheetCal b
      = .ok (69964, (readRawTemperature hiFirst b1).2) := by
  apply getPressure_of_ok 0 hiFirst datasheetCal b b1 23843 2400 69964 hup
  · rw [hut]; decide
  · decide

/-- C1, on the simulated datasheet sensor. -/
theorem getPressure_datasheet_vector_witness :
    getPressure 0 true datasheetCal datasheetBus
      = .ok (69964, (readRawTemperature true datasheetBusAfterPressure).2) :=
  getPressure_datasheet_vector true datasheetBus datasheetBusAfterPressure rfl rfl

/-- C2: with `AC5 = 32757`, `AC6 = 23153`, `MC = -8711`, `MD = 2868`, on any
bus whose temperature conversion reads as 27898, `compensateTemperature`
returns `b5 = 2400`, the rounding `(b5 + 8) >> 4` gives 150 tenths of a degree
and `getTemperature` returns `150 / 10 = 15.0`. -/
theorem getTemperature_datasheet_vector (hiFirst : Bool) (cal : calibrationData)
    (b : Bus) (h5 : cal.ac5 = 32757) (h6 : cal.ac6 = 23153) (hmc : cal.mc = -8711)
    (hmd : cal.md = 2868) (hut : (readRawTemperature hiFirst b).1 = 27898) :
    compensateTemperature hiFirst cal b = .ok (2400, (readRawTemperature hiFirst b).2) ∧
    sar (add32 2400 8) 4 = 150 ∧
    getTemperature hiFirst cal b
      = .ok ((150 : ℚ) / 10, (readRawTemperature hiFirst b).2) ∧
    (150 : ℚ) / 10 = 15 := by
  have hb5 : compensateTemperatureOf cal (readRawTemperature hiFirst b).1 = .ok 2400 := by
    rw [hut]
    unfold compensateTemperatureOf
    rw [h5, h6, hmc, hmd]
    decide
  have hr : sar (add32 2400 8) 4 = 150 := by decide
  refine ⟨compensateTemperature_of_ok hiFirst cal b 2400 hb5, hr, ?_, by norm_num⟩
  rw [getTemperature_of_ok hiFirst cal b 2400 hb5, hr]
  norm_num

/-- C2, on the simulated datasheet sensor, with either order of the two byte
reads. -/
theorem getTemperature_datasheet_vector_witness :
    (getTemperature true datasheetCal datasheetBus
        = .ok ((150 : ℚ) / 10, (readRawTemperature true datasheetBus).2)) ∧
    (getTemperature false datasheetCal datasheetBus
        = .ok ((150 : ℚ) / 10, (readRawTemperature false datasheetBus).2)) :=
  ⟨(getTemperature_datasheet_vector true datasheetCal datasheetBus rfl rfl rfl rfl rfl).2.2.1,
   (getTemperature_datasheet_vector false datasheetCal datasheetBus rfl rfl rfl rfl rfl).2.2.1⟩

/-! ## The pressure formula -/

/-- C3: the first `x1` of `getPressure` is `(B2 * (b6*b6)) >> 12 >> 11`, not the
specification's `(B2 * ((b6*b6) >> 12)) >> 11`.  With a production calibration
set at the configured oversampling 1: at 14.7 degrees (`b5 = 2346`) and raw
pressure 81500 the code returns 101126 Pa where the formula gives 101128 Pa;
at -38.8 degrees (`b5 = -6208`, where `B2 * b6 * b6` leaves the 32-bit range)
and raw pressure 90000 it returns 98698 Pa where the formula gives 98346 Pa.
The first case is also run through the bus (temperature code 12119). -/
theorem getPressure_first_x1_differs :
    getPressureOf 1 fieldCal 81500 2346 = .ok 101126 ∧
    specPressure 1 fieldCal 81500 2346 = 101128 ∧
    getPressureOf 1 fieldCal 90000 (-6208) = .ok 98698 ∧
    specPressure 1 fieldCal 90000 (-6208) = 98346 ∧
    (getPressure OSS true fieldCal (sensorBus (fun _ => 0) 12119 10432000)).map Prod.fst
      = .ok 101126 := by
  refine ⟨by decide, by decide, by decide, by decide, by decide⟩


/-! ## Arithmetic lemmas -/

theorem toS32_of_range (x : Int) (h1 : -2147483648 ≤ x) (h2 : x < 2147483648) :
    toS32 x = x := by
  unfold toS32; omega

theorem toS32_bounds (x : Int) : -2147483648 ≤ toS32 x ∧ toS32 x < 2147483648 := by
  unfold toS32; omega

theorem toS32_toS32_mul (a b : Int) : toS32 (toS32 a * b) = toS32 (a * b) := by
  have h : toS32 a = a - 4294967296 * ((a + 2147483648) / 4294967296) := by
    unfold toS32; omega
  rw [h]
  unfold toS32
  have e : (a - 4294967296 * ((a + 2147483648) / 4294967296)) * b + 2147483648
      = (a * b + 2147483648) + (-(((a + 2147483648) / 4294967296) * b)) * 4294967296 := by
    ring
  rw [e, Int.add_mul_emod_self]

theorem toS32_toS32_sub (a b : Int) : toS32 (toS32 a - b) = toS32 (a - b) := by
  unfold toS32; omega

theorem sar_eq_div (x : Int) (n : Nat) : sar x n = x / 2 ^ n := by
  unfold sar
  have h := Int.shiftRight_eq_div_pow x n
  rw [show Int.shiftRight x n = x >>> n from rfl, h]
  norm_cast

theorem tdiv_abs_le (a b : Int) : -|a| ≤ Int.tdiv a b ∧ Int.tdiv a b ≤ |a| := by
  have h : (Int.tdiv a b).natAbs ≤ a.natAbs := by
    rw [Int.natAbs_tdiv]
    exact Nat.div_le_self _ _
  have h2 : |Int.tdiv a b| ≤ |a| := by
    rw [Int.abs_eq_natAbs, Int.abs_eq_natAbs]
    exact_mod_cast h
  exact abs_le.mp h2

/-- The bitwise or of a byte shifted left by 8 and a byte is their sum. -/
theorem lor_two_bytes (hi lo : Int) (hhi : 0 ≤ hi) (hlo : 0 ≤ lo ∧ lo ≤ 255) :
    Int.lor (hi * 256) lo = hi * 256 + lo := by
  obtain ⟨h, rfl⟩ := Int.eq_ofNat_of_zero_le hhi
  obtain ⟨l, rfl⟩ := Int.eq_ofNat_of_zero_le hlo.1
  have hl : l < 2 ^ 8 := by omega
  have e : ((h : Int) * 256) = ((2 ^ 8 * h : Nat) : Int) := by push_cast; ring
  rw [e]
  show ((2 ^ 8 * h ||| l : Nat) : Int) = _
  rw [← Nat.mul_add_lt_is_or hl h]
  push_cast
  ring

theorem orBits_of_nat (m n : Nat) (hm : m < 4294967296) (hn : n < 4294967296) :
    orBits (m : Int) (n : Int) = m ||| n := by
  unfold orBits toU32
  have e1 : ((m : Int) % 4294967296).toNat = m := by omega
  have e2 : ((n : Int) % 4294967296).toNat = n := by omega
  rw [e1, e2]
  rfl

/-- The 32-bit or of `x << i` with a value below `2 ^ i` is their sum. -/
theorem orBits_shifted (x y : Int) (i : Nat) (hi32 : i ≤ 32)
    (hx : 0 ≤ x ∧ x * 2 ^ i < 4294967296) (hy : 0 ≤ y ∧ y < 2 ^ i) :
    ((orBits (x * 2 ^ i) y : Nat) : Int) = x * 2 ^ i + y := by
  obtain ⟨m, rfl⟩ := Int.eq_ofNat_of_zero_le hx.1
  obtain ⟨n, rfl⟩ := Int.eq_ofNat_of_zero_le hy.1
  have hn : n < 2 ^ i := by exact_mod_cast hy.2
  have hm : 2 ^ i * m < 4294967296 := by
    have := hx.2
    rw [mul_comm]
    exact_mod_cast this
  have hn2 : n < 4294967296 := by
    have : 2 ^ i ≤ 2 ^ 32 := Nat.pow_le_pow_right (by norm_num) hi32
    omega
  have e : ((m : Int) * 2 ^ i) = ((2 ^ i * m : Nat) : Int) := by push_cast; ring
  rw [e, orBits_of_nat _ _ hm hn2, ← Nat.mul_add_lt_is_or hn m]
  push_cast
  ring

/-! ## Temperature compensation -/

/-- C4: for every well-typed calibration set and every raw temperature `ut`
(16-bit or not) with `x1 + MD != 0`, the code computes the specification's
`b5 = x1 + x2`, `x1 = ((ut - AC6) * AC5) >> 15` on 32-bit signed integers,
`x2 = (MC << 11) / (x1 + MD)` truncated towards zero; on every bus delivering
`ut`, `compensateTemperature` returns that `b5` and `getTemperature` returns
`((b5 + 8) >> 4) / 10`, an integer number of tenths. -/
theorem compensateTemperature_refines_spec (cal : calibrationData) (ut : Int)
    (hcal : cal.wellTyped)
    (hne : sar (toS32 ((ut - cal.ac6) * cal.ac5)) 15 + cal.md ≠ 0) :
    compensateTemperatureOf cal ut = .ok (specB5 cal ut) ∧
    (∀ (hiFirst : Bool) (b : Bus), (readRawTemperature hiFirst b).1 = ut →
      compensateTemperature hiFirst cal b
        = .ok (specB5 cal ut, (readRawTemperature hiFirst b).2) ∧
      getTemperature hiFirst cal b
        = .ok (specTemperature cal ut, (readRawTemperature hiFirst b).2)) ∧
    specTemperature cal ut = ((sar (specB5 cal ut + 8) 4 : Int) : ℚ) / 10 := by
  obtain ⟨-, -, -, -, -, -, -, -, -, hmc, hmd⟩ := hcal
  have hx1 : sar (mul32 (sub32 (toS32 ut) cal.ac6) cal.ac5) 15
      = sar (toS32 ((ut - cal.ac6) * cal.ac5)) 15 := by
    unfold mul32 sub32
    rw [toS32_toS32_sub, toS32_toS32_mul]
  have hxb : -65536 ≤ sar (toS32 ((ut - cal.ac6) * cal.ac5)) 15 ∧
      sar (toS32 ((ut - cal.ac6) * cal.ac5)) 15 ≤ 65535 := by
    have hx := toS32_bounds ((ut - cal.ac6) * cal.ac5)
    rw [sar_eq_div]
    norm_num
    omega
  have hnum : shl32 cal.mc 11 = cal.mc * 2 ^ 11 := by
    unfold shl32
    apply toS32_of_range <;> norm_num <;> omega
  have habs : |cal.mc * 2 ^ 11| ≤ 67108864 := by
    rw [abs_le]; constructor <;> norm_num <;> omega
  have hq := tdiv_abs_le (cal.mc * 2 ^ 11) (sar (toS32 ((ut - cal.ac6) * cal.ac5)) 15 + cal.md)
  have hb5 : compensateTemperatureOf cal ut = .ok (specB5 cal ut) := by
    unfold compensateTemperatureOf specB5
    simp only [hx1, hnum]
    generalize sar (toS32 ((ut - cal.ac6) * cal.ac5)) 15 = x1 at hne hxb hq ⊢
    have hden : add32 x1 cal.md = x1 + cal.md := by
      unfold add32
      apply toS32_of_range <;> omega
    rw [hden]
    unfold cDiv
    rw [if_neg hne, if_neg (by intro h; have := h.1; norm_num at this; omega)]
    simp only
    unfold add32
    rw [toS32_of_range] <;> omega
  have hround : sar (add32 (specB5 cal ut) 8) 4 = sar (specB5 cal ut + 8) 4 := by
    have h8 : add32 (specB5 cal ut) 8 = specB5 cal ut + 8 := by
      unfold add32 specB5
      simp only
      generalize sar (toS32 ((ut - cal.ac6) * cal.ac5)) 15 = x1 at hne hxb hq ⊢
      apply toS32_of_range <;> omega
    rw [h8]
  refine ⟨hb5, ?_, rfl⟩
  intro hiFirst b hb
  rw [← hb] at hb5
  refine ⟨hb ▸ compensateTemperature_of_ok hiFirst cal b _ hb5, ?_⟩
  rw [getTemperature_of_ok hiFirst cal b _ hb5, hb, hround]
  rfl

/-- C4 on the datasheet vector. -/
theorem compensateTemperature_refines_spec_witness :
    compensateTemperatureOf datasheetCal 27898 = .ok (specB5 datasheetCal 27898) ∧
    specB5 datasheetCal 27898 = 2400 :=
  ⟨(compensateTemperature_refines_spec datasheetCal 27898 (by decide) (by decide)).1, by decide⟩


/-! ## Register reads -/

theorem read16_true (b : Bus) (reg : Int) :
    read16 true b reg =
      (toU16 (or32 (shl32 (b.respond b.trace reg) 8)
          (b.respond (b.trace ++ [Event.read reg]) (add32 reg 1))),
       { respond := b.respond
         trace := b.trace ++ [Event.read reg] ++ [Event.read (add32 reg 1)] }) := rfl

theorem read16_false (b : Bus) (reg : Int) :
    read16 false b reg =
      (toU16 (or32 (shl32 (b.respond (b.trace ++ [Event.read (add32 reg 1)]) reg) 8)
          (b.respond b.trace (add32 reg 1))),
       { respond := b.respond
         trace := b.trace ++ [Event.read (add32 reg 1)] ++ [Event.read reg] }) := rfl

theorem read16_respond (hiFirst : Bool) (b : Bus) (reg : Int) :
    (read16 hiFirst b reg).2.respond = b.respond := by
  cases hiFirst <;> rfl

/-- The word composed by `read16` from two bytes. -/
theorem read16_word (hi lo : Int) (hhi : 0 ≤ hi ∧ hi ≤ 255) (hlo : 0 ≤ lo ∧ lo ≤ 255) :
    toU16 (or32 (shl32 hi 8) lo) = 256 * hi + lo ∧
    or32 (shl32 hi 8) lo = Int.lor (hi * 2 ^ 8) lo := by
  have hs : shl32 hi 8 = hi * 2 ^ 8 := by
    unfold shl32
    apply toS32_of_range <;> norm_num <;> omega
  have ho : or32 (hi * 2 ^ 8) lo = hi * 256 + lo := by
    unfold or32
    rw [orBits_shifted hi lo 8 (by norm_num) ⟨hhi.1, by norm_num; omega⟩
      ⟨hlo.1, by norm_num; omega⟩]
    norm_num
    apply toS32_of_range <;> omega
  have hl : Int.lor (hi * 2 ^ 8) lo = hi * 256 + lo := by
    have := lor_two_bytes hi lo hhi.1 hlo
    norm_num
    exact this
  rw [hs, ho, hl]
  refine ⟨?_, rfl⟩
  unfold toU16
  omega

/-- C5: `read16` is a big-endian read.  Whichever of its two byte reads is
evaluated first, if the read of `reg` delivers the byte `hi` and the read of
`reg + 1` delivers the byte `lo`, the result is `(hi << 8) | lo`, which is
`256 * hi + lo` and lies in `0..65535`. -/
theorem read16_big_endian (hiFirst : Bool) (b : Bus) (reg hi lo : Int)
    (hhi : 0 ≤ hi ∧ hi ≤ 255) (hlo : 0 ≤ lo ∧ lo ≤ 255)
    (hread : if hiFirst then
        b.respond b.trace reg = hi ∧
        b.respond (b.trace ++ [Event.read reg]) (add32 reg 1) = lo
      else
        b.respond b.trace (add32 reg 1) = lo ∧
        b.respond (b.trace ++ [Event.read (add32 reg 1)]) reg = hi) :
    (read16 hiFirst b reg).1 = toU16 (Int.lor (hi * 2 ^ 8) lo) ∧
    (read16 hiFirst b reg).1 = 256 * hi + lo ∧
    0 ≤ (read16 hiFirst b reg).1 ∧ (read16 hiFirst b reg).1 ≤ 65535 := by
  have hw := read16_word hi lo hhi hlo
  have hv : (read16 hiFirst b reg).1 = toU16 (or32 (shl32 hi 8) lo) := by
    cases hiFirst
    · simp only [Bool.false_eq_true, if_false] at hread
      rw [read16_false, hread.1, hread.2]
    · simp only [if_true] at hread
      rw [read16_true, hread.1, hread.2]
  rw [hv]
  refine ⟨by rw [hw.2], hw.1, ?_, ?_⟩ <;> rw [hw.1] <;> omega

/-- C5 on the bytes `0x7F`, `0xE5` held at `0xB0`, `0xB1`, in both orders. -/
theorem read16_big_endian_witness :
    (read16 true (eepromBus datasheetEeprom) 0xB0).1 = 256 * 0x7F + 0xE5 ∧
    (read16 false (eepromBus datasheetEeprom) 0xB0).1 = 256 * 0x7F + 0xE5 :=
  ⟨(read16_big_endian true (eepromBus datasheetEeprom) 0xB0 0x7F 0xE5 (by decide) (by decide)
      (by decide)).2.1,
   (read16_big_endian false (eepromBus datasheetEeprom) 0xB0 0x7F 0xE5 (by decide) (by decide)
      (by decide)).2.1⟩


/-! ## Calibration -/

/-- On a device with fixed register contents, `read16` returns the word held
at `reg`, whatever the order of its reads. -/
theorem read16_static (hiFirst : Bool) (b : Bus) (mem : Int → Int) (reg : Int)
    (hdev : ∀ h r, b.respond h r = mem r) (hbyte : ∀ r, 0 ≤ mem r ∧ mem r ≤ 255) :
    (read16 hiFirst b reg).1 = wordAt mem reg := by
  have hw := (read16_word (mem reg) (mem (add32 reg 1)) (hbyte _) (hbyte _)).1
  cases hiFirst
  · rw [read16_false, hdev, hdev]; exact hw
  · rw [read16_true, hdev, hdev]; exact hw

theorem read16_static_pair (hiFirst : Bool) (b : Bus) (mem : Int → Int) (reg : Int)
    (hdev : ∀ h r, b.respond h r = mem r) (hbyte : ∀ r, 0 ≤ mem r ∧ mem r ≤ 255) :
    ∃ b1 : Bus, read16 hiFirst b reg = (wordAt mem reg, b1) ∧
      ∀ h r, b1.respond h r = mem r := by
  refine ⟨(read16 hiFirst b reg).2, ?_, ?_⟩
  · exact Prod.ext (read16_static hiFirst b mem reg hdev hbyte) rfl
  · rw [read16_respond]; exact hdev

theorem wordAt_range (mem : Int → Int) (hbyte : ∀ r, 0 ≤ mem r ∧ mem r ≤ 255) (reg : Int) :
    0 ≤ wordAt mem reg ∧ wordAt mem reg ≤ 65535 := by
  have h1 := hbyte reg
  have h2 := hbyte (add32 reg 1)
  unfold wordAt
  omega

theorem toS16_word (w : Int) (h : 0 ≤ w ∧ w ≤ 65535) : toS16 w = asSigned16 w := by
  unfold toS16 asSigned16
  split_ifs <;> omega

theorem toU16_word (w : Int) (h : 0 ≤ w ∧ w ≤ 65535) : toU16 w = w := by
  unfold toU16
  omega

/-- C6: on a device whose registers hold fixed bytes `mem`, `calibrate` loads
all eleven coefficients, each from the big-endian word at its own register:
`AC1`, `AC2`, `AC3`, `B1`, `B2`, `MB`, `MC`, `MD` as that word `w` read as
two's complement (`w` below 32768, `w - 65536` from there on), `AC4`, `AC5`,
`AC6` as `w` itself; every such word lies in `0..65535` and every loaded
coefficient is a value of its C type. -/
theorem calibrate_loads_coefficients (hiFirst : Bool) (r : RegisterMap) (b : Bus)
    (mem : Int → Int) (hdev : ∀ h reg, b.respond h reg = mem reg)
    (hbyte : ∀ reg, 0 ≤ mem reg ∧ mem reg ≤ 255) :
    (calibrate hiFirst r b).1 =
      { ac1 := asSigned16 (wordAt mem r.AC1_REG)
        ac2 := asSigned16 (wordAt mem r.AC2_REG)
        ac3 := asSigned16 (wordAt mem r.AC3_REG)
        ac4 := wordAt mem r.AC4_REG
        ac5 := wordAt mem r.AC5_REG
        ac6 := wordAt mem r.AC6_REG
        b1 := asSigned16 (wordAt mem r.B1_REG)
        b2 := asSigned16 (wordAt mem r.B2_REG)
        mb := asSigned16 (wordAt mem r.MB_REG)
        mc := asSigned16 (wordAt mem r.MC_REG)
        md := asSigned16 (wordAt mem r.MD_REG) } ∧
    (∀ reg, 0 ≤ wordAt mem reg ∧ wordAt mem reg ≤ 65535) ∧
    (calibrate hiFirst r b).1.wellTyped := by
  have hr := wordAt_range mem hbyte
  obtain ⟨c1, e1, d1⟩ := read16_static_pair hiFirst b mem r.AC1_REG hdev hbyte
  obtain ⟨c2, e2, d2⟩ := read16_static_pair hiFirst c1 mem r.AC2_REG d1 hbyte
  obtain ⟨c3, e3, d3⟩ := read16_static_pair hiFirst c2 mem r.AC3_REG d2 hbyte
  obtain ⟨c4, e4, d4⟩ := read16_static_pair hiFirst c3 mem r.AC4_REG d3 hbyte
  obtain ⟨c5, e5, d5⟩ := read16_static_pair hiFirst c4 mem r.AC5_REG d4 hbyte
  obtain ⟨c6, e6, d6⟩ := read16_static_pair hiFirst c5 mem r.AC6_REG d5 hbyte
  obtain ⟨c7, e7, d7⟩ := read16_static_pair hiFirst c6 mem r.B1_REG d6 hbyte
  obtain ⟨c8, e8, d8⟩ := read16_static_pair hiFirst c7 mem r.B2_REG d7 hbyte
  obtain ⟨c9, e9, d9⟩ := read16_static_pair hiFirst c8 mem r.MB_REG d8 hbyte
  obtain ⟨c10, e10, d10⟩ := read16_static_pair hiFirst c9 mem r.MC_REG d9 hbyte
  obtain ⟨c11, e11, -⟩ := read16_static_pair hiFirst c10 mem r.MD_REG d10 hbyte
  have e : (calibrate hiFirst r b).1 =
      { ac1 := asSigned16 (wordAt mem r.AC1_REG)
        ac2 := asSigned16 (wordAt mem r.AC2_REG)
        ac3 := asSigned16 (wordAt mem r.AC3_REG)
        ac4 := wordAt mem r.AC4_REG
        ac5 := wordAt mem r.AC5_REG
        ac6 := wordAt mem r.AC6_REG
        b1 := asSigned16 (wordAt mem r.B1_REG)
        b2 := asSigned16 (wordAt mem r.B2_REG)
        mb := asSigned16 (wordAt mem r.MB_REG)
        mc := asSigned16 (wordAt mem r.MC_REG)
        md := asSigned16 (wordAt mem r.MD_REG) } := by
    simp only [calibrate, e1, e2, e3, e4, e5, e6, e7, e8, e9, e10, e11,
      toS16_word _ (hr _), toU16_word _ (hr _)]
  refine ⟨e, hr, ?_⟩
  rw [e]
  unfold calibrationData.wellTyped asSigned16
  dsimp only
  have h1 := hr r.AC1_REG
  have h2 := hr r.AC2_REG
  have h3 := hr r.AC3_REG
  have h4 := hr r.AC4_REG
  have h5 := hr r.AC5_REG
  have h6 := hr r.AC6_REG
  have h7 := hr r.B1_REG
  have h8 := hr r.B2_REG
  have h9 := hr r.MB_REG
  have h10 := hr r.MC_REG
  have h11 := hr r.MD_REG
  refine ⟨?_, ?_, ?_, ?_, ?_, ?_, ?_, ?_, ?_, ?_, ?_⟩ <;> (try split_ifs) <;> omega

/-- C6 on the datasheet EEPROM: the eleven coefficients of the datasheet
example, among them `MB = -32768` from the bytes `0x80`, `0x00` and
`AC4 = 32741` from the bytes `0x7F`, `0xE5`. -/
theorem calibrate_loads_coefficients_witness :
    (calibrate true bmp180Registers (eepromBus datasheetEeprom)).1 = datasheetCal ∧
    datasheetEeprom 0xBA = 0x80 ∧ datasheetEeprom 0xBB = 0x00 ∧
    datasheetEeprom 0xB0 = 0x7F ∧ datasheetEeprom 0xB1 = 0xE5 := by
  refine ⟨?_, by decide, by decide, by decide, by decide⟩
  rw [(calibrate_loads_coefficients true bmp180Registers (eepromBus datasheetEeprom)
    datasheetEeprom (fun _ _ => rfl) (fun reg => by
      unfold datasheetEeprom
      split_ifs <;> omega)).1]
  decide


/-! ## Raw samples -/

/-- The bitwise or of three bytes placed at bits 16, 8 and 0 is their sum. -/
theorem lor_three_bytes (b0 b1 b2 : Int) (h0 : 0 ≤ b0 ∧ b0 ≤ 255) (h1 : 0 ≤ b1 ∧ b1 ≤ 255)
    (h2 : 0 ≤ b2 ∧ b2 ≤ 255) :
    Int.lor (Int.lor (b0 * 65536) (b1 * 256)) b2 = b0 * 65536 + b1 * 256 + b2 := by
  have e1 : Int.lor (b0 * 65536) (b1 * 256) = (b0 * 256 + b1) * 256 := by
    have h := lor_two_bytes (b0 * 256) b1 (by omega) h1
    obtain ⟨n0, rfl⟩ := Int.eq_ofNat_of_zero_le h0.1
    obtain ⟨n1, rfl⟩ := Int.eq_ofNat_of_zero_le h1.1
    have hn1 : n1 * 256 < 2 ^ 16 := by omega
    have e : ((n0 : Int) * 65536) = ((2 ^ 16 * n0 : Nat) : Int) := by push_cast; ring
    have e' : ((n1 : Int) * 256) = ((n1 * 256 : Nat) : Int) := by push_cast; ring
    rw [e, e']
    show ((2 ^ 16 * n0 ||| n1 * 256 : Nat) : Int) = _
    rw [← Nat.mul_add_lt_is_or hn1 n0]
    push_cast
    ring
  rw [e1, lor_two_bytes _ b2 (by omega) h2]
  ring

theorem readRawPressure_eq (oss : Int) (b : Bus) (d : Int) (c : Nat)
    (hd : conversionDelay oss = some d) (hc : shiftCount (sub32 8 oss) = .ok c) :
    readRawPressure oss b =
      .ok (shrU32 (orU32 (orU32
            (shlU32 (toU8 (b.respond (b.trace ++ [Event.write 0xF4 (add32 0x34 (shl32 oss 6)),
              Event.sleep d]) 0xF6)) 16)
            (shlU32 (toU8 (b.respond (b.trace ++ [Event.write 0xF4 (add32 0x34 (shl32 oss 6)),
              Event.sleep d, Event.read 0xF6]) 0xF7)) 8))
            (toU8 (b.respond (b.trace ++ [Event.write 0xF4 (add32 0x34 (shl32 oss 6)),
              Event.sleep d, Event.read 0xF6, Event.read 0xF7]) 0xF8))) c,
        { respond := b.respond
          trace := b.trace ++ [Event.write 0xF4 (add32 0x34 (shl32 oss 6)), Event.sleep d,
            Event.read 0xF6, Event.read 0xF7, Event.read 0xF8] }) := by
  unfold readRawPressure
  simp only [hd, hc, wiringPiI2CWriteReg8, usleep, wiringPiI2CReadReg8, List.append_assoc,
    List.singleton_append, List.cons_append, List.nil_append]

/-- C7: for `oss` in `0..3`, `readRawPressure` writes the single command byte
`0x34 + (oss << 6)` (one of `0x34`, `0x74`, `0xB4`, `0xF4`) to register `0xF4`,
waits, then reads `0xF6`, `0xF7`, `0xF8` in this order, and for every triple
of bytes `b0`, `b1`, `b2` delivered by these reads returns
`((b0 << 16) | (b1 << 8) | b2) >> (8 - oss)`. -/
theorem readRawPressure_trigger_then_read (oss : Int) (b : Bus) (d b0 b1 b2 : Int)
    (hoss : 0 ≤ oss ∧ oss ≤ 3) (hd : conversionDelay oss = some d)
    (h0 : 0 ≤ b0 ∧ b0 ≤ 255) (h1 : 0 ≤ b1 ∧ b1 ≤ 255) (h2 : 0 ≤ b2 ∧ b2 ≤ 255)
    (hr0 : b.respond (b.trace ++ [Event.write 0xF4 (0x34 + oss * 2 ^ 6), Event.sleep d])
      0xF6 = b0)
    (hr1 : b.respond (b.trace ++ [Event.write 0xF4 (0x34 + oss * 2 ^ 6), Event.sleep d,
      Event.read 0xF6]) 0xF7 = b1)
    (hr2 : b.respond (b.trace ++ [Event.write 0xF4 (0x34 + oss * 2 ^ 6), Event.sleep d,
      Event.read 0xF6, Event.read 0xF7]) 0xF8 = b2) :
    readRawPressure oss b =
      .ok (sar (Int.lor (Int.lor (b0 * 2 ^ 16) (b1 * 2 ^ 8)) b2) (8 - oss).toNat,
        { respond := b.respond
          trace := b.trace ++ [Event.write 0xF4 (0x34 + oss * 2 ^ 6), Event.sleep d,
            Event.read 0xF6, Event.read 0xF7, Event.read 0xF8] }) ∧
    (0x34 + oss * 2 ^ 6 = 0x34 ∨ 0x34 + oss * 2 ^ 6 = 0x74 ∨
      0x34 + oss * 2 ^ 6 = 0xB4 ∨ 0x34 + oss * 2 ^ 6 = 0xF4) ∧
    (0 ≤ 0x34 + oss * 2 ^ 6 ∧ 0x34 + oss * 2 ^ 6 ≤ 255) := by
  have hcmd : add32 0x34 (shl32 oss 6) = 0x34 + oss * 2 ^ 6 := by
    unfold add32 shl32
    rw [toS32_of_range (oss * 2 ^ 6), toS32_of_range] <;> norm_num <;> omega
  have hc : shiftCount (sub32 8 oss) = .ok (8 - oss).toNat := by
    have : sub32 8 oss = 8 - oss := by
      unfold sub32; apply toS32_of_range <;> omega
    rw [this]
    unfold shiftCount
    rw [if_pos (by omega)]
  refine ⟨?_, by omega, by omega⟩
  rw [readRawPressure_eq oss b d _ hd hc, hcmd, hr0, hr1, hr2]
  have e8 : ∀ x : Int, 0 ≤ x ∧ x ≤ 255 → toU8 x = x := by
    intro x hx; unfold toU8; omega
  rw [e8 b0 h0, e8 b1 h1, e8 b2 h2]
  have s16 : shlU32 b0 16 = b0 * 2 ^ 16 := by unfold shlU32 toU32; norm_num; omega
  have s8 : shlU32 b1 8 = b1 * 2 ^ 8 := by unfold shlU32 toU32; norm_num; omega
  rw [s16, s8]
  have hsum := lor_three_bytes b0 b1 b2 h0 h1 h2
  have o1 : orU32 (b0 * 2 ^ 16) (b1 * 2 ^ 8) = (b0 * 2 ^ 8 + b1) * 2 ^ 8 := by
    unfold orU32
    have h := orBits_shifted b0 (b1 * 2 ^ 8) 16 (by norm_num) ⟨h0.1, by norm_num; omega⟩
      ⟨by norm_num; omega, by norm_num; omega⟩
    rw [h]
    ring
  have o2 : orU32 ((b0 * 2 ^ 8 + b1) * 2 ^ 8) b2 = (b0 * 2 ^ 8 + b1) * 2 ^ 8 + b2 := by
    unfold orU32
    exact orBits_shifted (b0 * 2 ^ 8 + b1) b2 8 (by norm_num)
      ⟨by norm_num; omega, by norm_num; omega⟩ ⟨h2.1, by norm_num; omega⟩
  rw [o1, o2]
  norm_num at hsum ⊢
  unfold shrU32 sar
  rw [hsum]
  congr 1
  unfold toU32
  omega

/-- C7 at the configured oversampling 1, on a sensor holding the bytes `0x9F`,
`0x2E`, `0x00`: the raw pressure is `0x9F2E00 >> 7 = 81500`. -/
theorem readRawPressure_trigger_then_read_witness :
    (readRawPressure OSS (sensorBus (fun _ => 0) 12119 10432000)).map Prod.fst = .ok 81500 := by
  rw [show OSS = 1 from rfl, (readRawPressure_trigger_then_read 1 (sensorBus (fun _ => 0) 12119 10432000) 7500
    0x9F 0x2E 0x00 (by decide) (by decide) (by decide) (by decide) (by decide)
    (by decide) (by decide) (by decide)).1]
  decide

theorem readRawTemperature_eq (hiFirst : Bool) (b : Bus) :
    readRawTemperature hiFirst b =
      (toU32 (read16 hiFirst
          { respond := b.respond
            trace := b.trace ++ [Event.write 0xF4 0x2E, Event.sleep 4500] } 0xF6).1,
       (read16 hiFirst
          { respond := b.respond
            trace := b.trace ++ [Event.write 0xF4 0x2E, Event.sleep 4500] } 0xF6).2) := by
  unfold readRawTemperature
  simp only [wiringPiI2CWriteReg8, usleep, List.append_assoc, List.singleton_append]

/-- C8: `readRawTemperature` writes the command byte `0x2E` to register `0xF4`,
waits, and only then reads the registers `0xF6` and `0xF7` (in the order the
compiler chose for `read16`); for every pair of bytes `hi`, `lo` that these
reads deliver it returns `(hi << 8) | lo = 256 * hi + lo`, in `0..65535`. -/
theorem readRawTemperature_trigger_then_read (hiFirst : Bool) (b : Bus) (hi lo : Int)
    (hhi : 0 ≤ hi ∧ hi ≤ 255) (hlo : 0 ≤ lo ∧ lo ≤ 255)
    (hread : if hiFirst then
        b.respond (b.trace ++ [Event.write 0xF4 0x2E, Event.sleep 4500]) 0xF6 = hi ∧
        b.respond (b.trace ++ [Event.write 0xF4 0x2E, Event.sleep 4500, Event.read 0xF6])
          0xF7 = lo
      else
        b.respond (b.trace ++ [Event.write 0xF4 0x2E, Event.sleep 4500]) 0xF7 = lo ∧
        b.respond (b.trace ++ [Event.write 0xF4 0x2E, Event.sleep 4500, Event.read 0xF7])
          0xF6 = hi) :
    (readRawTemperature hiFirst b).1 = toU16 (Int.lor (hi * 2 ^ 8) lo) ∧
    (readRawTemperature hiFirst b).1 = 256 * hi + lo ∧
    (0 ≤ (readRawTemperature hiFirst b).1 ∧ (readRawTemperature hiFirst b).1 ≤ 65535) ∧
    (readRawTemperature hiFirst b).2.trace =
      b.trace ++ [Event.write 0xF4 0x2E, Event.sleep 4500] ++
        (if hiFirst then [Event.read 0xF6, Event.read 0xF7]
         else [Event.read 0xF7, Event.read 0xF6]) := by
  have hw := read16_word hi lo hhi hlo
  have h7 : add32 0xF6 1 = 0xF7 := by decide
  have hu : toU32 (256 * hi + lo) = 256 * hi + lo := by unfold toU32; omega
  rw [readRawTemperature_eq]
  cases hiFirst
  · simp only [Bool.false_eq_true, if_false] at hread
    simp only [read16_false, h7, List.append_assoc, List.cons_append, List.nil_append,
      hread.1, hread.2, hw.1, hu, ← hw.2, Bool.false_eq_true, if_false, true_and]
    exact ⟨by omega, trivial⟩
  · simp only [if_true] at hread
    simp only [read16_true, h7, List.append_assoc, List.cons_append, List.nil_append,
      hread.1, hread.2, hw.1, hu, ← hw.2, if_true, true_and]
    exact ⟨by omega, trivial⟩

/-- C8 on the datasheet sensor (bytes `0x6C`, `0xFA`), in both orders. -/
theorem readRawTemperature_trigger_then_read_witness :
    (readRawTemperature true datasheetBus).1 = 256 * 0x6C + 0xFA ∧
    (readRawTemperature false datasheetBus).1 = 256 * 0x6C + 0xFA :=
  ⟨(readRawTemperature_trigger_then_read true datasheetBus 0x6C 0xFA (by decide) (by decide)
      (by decide)).2.1,
   (readRawTemperature_trigger_then_read false datasheetBus 0x6C 0xFA (by decide) (by decide)
      (by decide)).2.1⟩


/-! ## Division by zero -/

theorem compensateTemperatureOf_zero_divisor (cal : calibrationData) (ut : Int)
    (h0 : sar (toS32 ((ut - cal.ac6) * cal.ac5)) 15 + cal.md = 0) :
    compensateTemperatureOf cal ut = .error UB.divisionByZero := by
  have hx1 : sar (mul32 (sub32 (toS32 ut) cal.ac6) cal.ac5) 15
      = sar (toS32 ((ut - cal.ac6) * cal.ac5)) 15 := by
    unfold mul32 sub32
    rw [toS32_toS32_sub, toS32_toS32_mul]
  have hden : add32 (sar (toS32 ((ut - cal.ac6) * cal.ac5)) 15) cal.md = 0 := by
    unfold add32
    rw [h0]
    decide
  unfold compensateTemperatureOf
  simp only [hx1, hden]
  unfold cDiv
  rw [if_pos rfl]

/-- C9, as the code behaves: `compensateTemperature` has no guard.  For every
calibration set and every bus whose raw temperature `ut` makes `x1 + MD = 0`
(`x1 = ((ut - AC6) * AC5) >> 15`), it executes the division `(MC << 11) / 0`,
whose behaviour C leaves undefined: no fault is signalled and no value is
defined, for `compensateTemperature` and for `getTemperature` alike. -/
theorem compensateTemperature_unguarded_division (hiFirst : Bool) (cal : calibrationData)
    (b : Bus)
    (h0 : sar (toS32 (((readRawTemperature hiFirst b).1 - cal.ac6) * cal.ac5)) 15
      + cal.md = 0) :
    compensateTemperature hiFirst cal b = .error UB.divisionByZero ∧
    getTemperature hiFirst cal b = .error UB.divisionByZero :=
  ⟨compensateTemperature_of_error hiFirst cal b _
      (compensateTemperatureOf_zero_divisor cal _ h0),
   getTemperature_of_error hiFirst cal b _
      (compensateTemperatureOf_zero_divisor cal _ h0)⟩

/-- C9 as the code behaves, on the example `AC6 = 0`, `AC5 = 32768`,
`ut = 100`, `MD = -100`. -/
theorem compensateTemperature_unguarded_division_witness :
    getTemperature true zeroDivisorCal (sensorBus (fun _ => 0) 100 0)
      = .error UB.divisionByZero :=
  (compensateTemperature_unguarded_division true zeroDivisorCal
    (sensorBus (fun _ => 0) 100 0) (by decide)).2

/-- C9 fails as stated: with `AC6 = 0`, `AC5 = 32768`, `MD = -100` and a bus
delivering `ut = 100`, `x1 + MD` is zero and `compensateTemperature` runs the
operator `/` on the divisor zero instead of signalling a fault. -/
theorem compensateTemperature_no_zero_guard :
    (readRawTemperature true (sensorBus (fun _ => 0) 100 0)).1 = 100 ∧
    sar (toS32 ((100 - zeroDivisorCal.ac6) * zeroDivisorCal.ac5)) 15 + zeroDivisorCal.md = 0 ∧
    cDiv (shl32 zeroDivisorCal.mc 11) 0 = .error UB.divisionByZero ∧
    compensateTemperature true zeroDivisorCal (sensorBus (fun _ => 0) 100 0)
      = .error UB.divisionByZero := by
  refine ⟨by decide, by decide, by decide, ?_⟩
  apply compensateTemperature_of_error
  decide


/-! ## Failed register reads -/

/-- The word `read16` composes when the read of the low byte fails. -/
theorem read16_word_low_failed (hi : Int) (hhi : -1 ≤ hi ∧ hi ≤ 255) :
    toU16 (or32 (shl32 hi 8) (-1)) = 65535 := by
  obtain ⟨h1, h2⟩ := hhi
  interval_cases hi <;> decide

/-- The word `read16` composes when only the read of the high byte fails. -/
theorem read16_word_high_failed (lo : Int) (hlo : 0 ≤ lo ∧ lo ≤ 255) :
    toU16 (or32 (shl32 (-1) 8) lo) = 65280 + lo := by
  obtain ⟨h1, h2⟩ := hlo
  interval_cases lo <;> decide

theorem read16_dead_pair (hiFirst : Bool) (b : Bus) (reg : Int)
    (hdev : ∀ h r, b.respond h r = -1) :
    ∃ b1 : Bus, read16 hiFirst b reg = (65535, b1) ∧ ∀ h r, b1.respond h r = -1 := by
  refine ⟨(read16 hiFirst b reg).2, ?_, ?_⟩
  · refine Prod.ext ?_ rfl
    cases hiFirst
    · rw [read16_false, hdev, hdev]; rfl
    · rw [read16_true, hdev, hdev]; rfl
  · rw [read16_respond]; exact hdev

/-- C10, as the code behaves: no bus failure is signalled.  On every bus and
for every `oss` in `0..3`, `readRawPressure` returns a raw value; a failed
read (`-1`) enters the value of `read16` as one-bits, `0xFFFF` when the read
of the low byte fails and `0xFF00 | lo` when only the read of the high byte
fails; and on a bus where every read fails `calibrate` leaves `-1` in the
signed and 65535 in the unsigned coefficients, `readRawTemperature` returns
65535 and `readRawPressure` returns `2 ^ (16 + oss) - 1`. -/
theorem bus_failure_enters_value (hiFirst : Bool) (b : Bus) (oss : Int)
    (hoss : 0 ≤ oss ∧ oss ≤ 3) :
    (∃ v b1, readRawPressure oss b = .ok (v, b1)) ∧
    (∀ reg hi lo : Int, (-1 ≤ hi ∧ hi ≤ 255) → (-1 ≤ lo ∧ lo ≤ 255) →
      (if hiFirst then
        b.respond b.trace reg = hi ∧
        b.respond (b.trace ++ [Event.read reg]) (add32 reg 1) = lo
      else
        b.respond b.trace (add32 reg 1) = lo ∧
        b.respond (b.trace ++ [Event.read (add32 reg 1)]) reg = hi) →
      (hi = -1 ∨ lo = -1) →
      (read16 hiFirst b reg).1 = if lo = -1 then 65535 else 65280 + lo) ∧
    ((∀ h reg, b.respond h reg = -1) → ∀ r : RegisterMap,
      (calibrate hiFirst r b).1 = allOnesCal ∧
      (readRawTemperature hiFirst b).1 = 65535 ∧
      (readRawPressure oss b).map Prod.fst = .ok (2 ^ (16 + oss.toNat) - 1)) := by
  have hcases : oss = 0 ∨ oss = 1 ∨ oss = 2 ∨ oss = 3 := by omega
  have hd : ∃ d, conversionDelay oss = some d := by
    rcases hcases with rfl | rfl | rfl | rfl
    · exact ⟨4500, rfl⟩
    · exact ⟨7500, rfl⟩
    · exact ⟨13500, rfl⟩
    · exact ⟨25500, rfl⟩
  obtain ⟨d, hd⟩ := hd
  have hc : shiftCount (sub32 8 oss) = .ok (8 - oss).toNat := by
    rcases hcases with rfl | rfl | rfl | rfl <;> rfl
  refine ⟨⟨_, _, readRawPressure_eq oss b d _ hd hc⟩, ?_, ?_⟩
  · intro reg hi lo hhi hlo hread hfail
    have hv : (read16 hiFirst b reg).1 = toU16 (or32 (shl32 hi 8) lo) := by
      cases hiFirst
      · simp only [Bool.false_eq_true, if_false] at hread
        rw [read16_false, hread.1, hread.2]
      · simp only [if_true] at hread
        rw [read16_true, hread.1, hread.2]
    rw [hv]
    by_cases hl : lo = -1
    · rw [if_pos hl, hl]
      exact read16_word_low_failed hi hhi
    · rw [if_neg hl]
      have hh : hi = -1 := by
        rcases hfail with h | h
        · exact h
        · exact absurd h hl
      rw [hh]
      exact read16_word_high_failed lo ⟨by omega, hlo.2⟩
  · intro hdev r
    refine ⟨?_, ?_, ?_⟩
    · obtain ⟨c1, e1, d1⟩ := read16_dead_pair hiFirst b r.AC1_REG hdev
      obtain ⟨c2, e2, d2⟩ := read16_dead_pair hiFirst c1 r.AC2_REG d1
      obtain ⟨c3, e3, d3⟩ := read16_dead_pair hiFirst c2 r.AC3_REG d2
      obtain ⟨c4, e4, d4⟩ := read16_dead_pair hiFirst c3 r.AC4_REG d3
      obtain ⟨c5, e5, d5⟩ := read16_dead_pair hiFirst c4 r.AC5_REG d4
      obtain ⟨c6, e6, d6⟩ := read16_dead_pair hiFirst c5 r.AC6_REG d5
      obtain ⟨c7, e7, d7⟩ := read16_dead_pair hiFirst c6 r.B1_REG d6
      obtain ⟨c8, e8, d8⟩ := read16_dead_pair hiFirst c7 r.B2_REG d7
      obtain ⟨c9, e9, d9⟩ := read16_dead_pair hiFirst c8 r.MB_REG d8
      obtain ⟨c10, e10, d10⟩ := read16_dead_pair hiFirst c9 r.MC_REG d9
      obtain ⟨c11, e11, -⟩ := read16_dead_pair hiFirst c10 r.MD_REG d10
      simp only [calibrate, e1, e2, e3, e4, e5, e6, e7, e8, e9, e10, e11]
      rfl
    · rw [readRawTemperature_eq]
      obtain ⟨c1, e1, -⟩ := read16_dead_pair hiFirst
        { respond := b.respond
          trace := b.trace ++ [Event.write 0xF4 0x2E, Event.sleep 4500] } 0xF6 hdev
      rw [e1]
      rfl
    · rw [readRawPressure_eq oss b d _ hd hc, hdev, hdev, hdev]
      rcases hcases with rfl | rfl | rfl | rfl <;> rfl

/-- C10 as the code behaves, on a device on which every read fails, at the
configured oversampling. -/
theorem bus_failure_enters_value_witness :
    (calibrate true bmp180Registers deadBus).1 = allOnesCal ∧
    (readRawTemperature true deadBus).1 = 65535 ∧
    (readRawPressure 1 deadBus).map Prod.fst = .ok (2 ^ (16 + (1 : Int).toNat) - 1) :=
  (bus_failure_enters_value true deadBus 1 (by decide)).2.2 (fun _ _ => rfl) bmp180Registers

/-- C10 fails as stated: on a device on which every register read returns
`-1`, `calibrate` still returns coefficients, `readRawTemperature` returns the
raw value 65535 and `readRawPressure` the raw value 131071; none of them
reports an error. -/
theorem bus_failure_not_signalled :
    (∀ h reg, deadBus.respond h reg = -1) ∧
    (calibrate false bmp180Registers deadBus).1 =
      { ac1 := -1, ac2 := -1, ac3 := -1, ac4 := 65535, ac5 := 65535, ac6 := 65535,
        b1 := -1, b2 := -1, mb := -1, mc := -1, md := -1 } ∧
    (readRawTemperature false deadBus).1 = 65535 ∧
    (readRawPressure OSS deadBus).map Prod.fst = .ok 131071 := by
  refine ⟨fun _ _ => rfl, by decide, by decide, by decide⟩


/-! ## Conversion delays and the width of the raw pressure -/

theorem conversionDelay_legal (oss : Int) (hoss : 0 ≤ oss ∧ oss ≤ 3) :
    ∃ d, conversionDelay oss = some d := by
  have hcases : oss = 0 ∨ oss = 1 ∨ oss = 2 ∨ oss = 3 := by omega
  rcases hcases with rfl | rfl | rfl | rfl
  · exact ⟨4500, rfl⟩
  · exact ⟨7500, rfl⟩
  · exact ⟨13500, rfl⟩
  · exact ⟨25500, rfl⟩

theorem shiftCount_legal (oss : Int) (hoss : 0 ≤ oss ∧ oss ≤ 8) :
    shiftCount (sub32 8 oss) = .ok (8 - oss).toNat := by
  have : sub32 8 oss = 8 - oss := by
    unfold sub32; apply toS32_of_range <;> omega
  rw [this]
  unfold shiftCount
  rw [if_pos (by omega)]

theorem pressureCommand_eq (oss : Int) (hoss : 0 ≤ oss ∧ oss ≤ 8) :
    add32 0x34 (shl32 oss 6) = 0x34 + oss * 2 ^ 6 := by
  unfold add32 shl32
  rw [toS32_of_range (oss * 2 ^ 6), toS32_of_range] <;> norm_num <;> omega

/-- C13: between the trigger write to `0xF4` and the first read of a result
register, `readRawTemperature` requests a wait of 4500 microseconds and, for
`oss` in `0..3`, `readRawPressure` requests the wait `conversionDelay oss`:
4500, 7500, 13500, 25500 microseconds (7500 for the configured `OSS`),
strictly increasing in `oss`.  In both traces every read of a result register
comes after the `usleep`. -/
theorem conversion_delays (oss : Int) (hiFirst : Bool) (b : Bus)
    (hoss : 0 ≤ oss ∧ oss ≤ 3) :
    (readRawTemperature hiFirst b).2.trace =
      b.trace ++ [Event.write 0xF4 0x2E, Event.sleep 4500] ++
        (if hiFirst then [Event.read 0xF6, Event.read 0xF7]
         else [Event.read 0xF7, Event.read 0xF6]) ∧
    (∃ d v, conversionDelay oss = some d ∧
      readRawPressure oss b = .ok (v,
        { respond := b.respond
          trace := b.trace ++ [Event.write 0xF4 (0x34 + oss * 2 ^ 6), Event.sleep d,
            Event.read 0xF6, Event.read 0xF7, Event.read 0xF8] })) ∧
    (conversionDelay 0 = some 4500 ∧ conversionDelay 1 = some 7500 ∧
      conversionDelay 2 = some 13500 ∧ conversionDelay 3 = some 25500 ∧
      conversionDelay OSS = some 7500) ∧
    (∀ i j di dj : Int, 0 ≤ i → i < j → j ≤ 3 → conversionDelay i = some di →
      conversionDelay j = some dj → di < dj) := by
  refine ⟨?_, ?_, ⟨rfl, rfl, rfl, rfl, rfl⟩, ?_⟩
  · have h7 : add32 0xF6 1 = 0xF7 := by decide
    rw [readRawTemperature_eq]
    cases hiFirst
    · simp only [read16_false, h7, List.append_assoc, List.cons_append, List.nil_append,
        Bool.false_eq_true, if_false]
    · simp only [read16_true, h7, List.append_assoc, List.cons_append, List.nil_append,
        if_true]
  · obtain ⟨d, hd⟩ := conversionDelay_legal oss hoss
    have h := readRawPressure_eq oss b d _ hd (shiftCount_legal oss ⟨hoss.1, by omega⟩)
    rw [pressureCommand_eq oss ⟨hoss.1, by omega⟩] at h
    exact ⟨d, _, hd, h⟩
  · intro i j di dj hi hij hj h1 h2
    have hi' : i = 0 ∨ i = 1 ∨ i = 2 := by omega
    have hj' : j = 1 ∨ j = 2 ∨ j = 3 := by omega
    rcases hi' with rfl | rfl | rfl <;> rcases hj' with rfl | rfl | rfl <;>
      simp only [conversionDelay] at h1 h2 <;> first | omega | (norm_num at h1 h2; omega)

/-- C13 at the configured oversampling, on the datasheet sensor: the wait
requested by `readRawPressure` is 7500 microseconds. -/
theorem conversion_delays_witness :
    ∃ d v, conversionDelay OSS = some d ∧
      readRawPressure OSS datasheetSensor = .ok (v,
        { respond := datasheetSensor.respond
          trace := datasheetSensor.trace ++ [Event.write 0xF4 (0x34 + OSS * 2 ^ 6),
            Event.sleep d, Event.read 0xF6, Event.read 0xF7, Event.read 0xF8] }) :=
  (conversion_delays OSS true datasheetSensor (by decide)).2.1

/-- The value `readRawPressure` composes from three bytes and a shift count. -/
theorem rawPressure_value (b0 b1 b2 : Int) (c : Nat) (h0 : 0 ≤ b0 ∧ b0 ≤ 255)
    (h1 : 0 ≤ b1 ∧ b1 ≤ 255) (h2 : 0 ≤ b2 ∧ b2 ≤ 255) :
    shrU32 (orU32 (orU32 (shlU32 b0 16) (shlU32 b1 8)) b2) c
      = (b0 * 65536 + b1 * 256 + b2) / 2 ^ c := by
  have s16 : shlU32 b0 16 = b0 * 2 ^ 16 := by unfold shlU32 toU32; norm_num; omega
  have s8 : shlU32 b1 8 = b1 * 2 ^ 8 := by unfold shlU32 toU32; norm_num; omega
  have o1 : orU32 (b0 * 2 ^ 16) (b1 * 2 ^ 8) = (b0 * 2 ^ 8 + b1) * 2 ^ 8 := by
    unfold orU32
    have h := orBits_shifted b0 (b1 * 2 ^ 8) 16 (by norm_num) ⟨h0.1, by norm_num; omega⟩
      ⟨by norm_num; omega, by norm_num; omega⟩
    rw [h]
    ring
  have o2 : orU32 ((b0 * 2 ^ 8 + b1) * 2 ^ 8) b2 = (b0 * 2 ^ 8 + b1) * 2 ^ 8 + b2 := by
    unfold orU32
    exact orBits_shifted (b0 * 2 ^ 8 + b1) b2 8 (by norm_num)
      ⟨by norm_num; omega, by norm_num; omega⟩ ⟨h2.1, by norm_num; omega⟩
  rw [s16, s8, o1, o2]
  have hu : toU32 ((b0 * 2 ^ 8 + b1) * 2 ^ 8 + b2) = b0 * 65536 + b1 * 256 + b2 := by
    unfold toU32; norm_num; omega
  unfold shrU32
  rw [hu]
  exact sar_eq_div _ c

theorem toU8_range (x : Int) : 0 ≤ toU8 x ∧ toU8 x ≤ 255 := by
  unfold toU8; omega

theorem rawPressure_bound (oss b0 b1 b2 : Int) (hoss : 0 ≤ oss ∧ oss ≤ 3)
    (h0 : 0 ≤ b0 ∧ b0 ≤ 255) (h1 : 0 ≤ b1 ∧ b1 ≤ 255) (h2 : 0 ≤ b2 ∧ b2 ≤ 255) :
    0 ≤ (b0 * 65536 + b1 * 256 + b2) / 2 ^ (8 - oss).toNat ∧
    (b0 * 65536 + b1 * 256 + b2) / 2 ^ (8 - oss).toNat < 2 ^ (16 + oss.toNat) ∧
    (b0 * 65536 + b1 * 256 + b2) / 2 ^ (8 - oss).toNat < 2 ^ 19 ∧
    (oss = OSS → (b0 * 65536 + b1 * 256 + b2) / 2 ^ (8 - oss).toNat < 2 ^ 17) := by
  have hcases : oss = 0 ∨ oss = 1 ∨ oss = 2 ∨ oss = 3 := by omega
  unfold OSS
  rcases hcases with rfl | rfl | rfl | rfl
  · rw [show ((8 : Int) - 0).toNat = 8 from rfl, show (0 : Int).toNat = 0 from rfl]
    norm_num
    omega
  · rw [show ((8 : Int) - 1).toNat = 7 from rfl, show (1 : Int).toNat = 1 from rfl]
    norm_num
    omega
  · rw [show ((8 : Int) - 2).toNat = 6 from rfl, show (2 : Int).toNat = 2 from rfl]
    norm_num
    omega
  · rw [show ((8 : Int) - 3).toNat = 5 from rfl, show (3 : Int).toNat = 3 from rfl]
    norm_num
    omega

/-- C14: for every `oss` in `0..3` and whatever the three reads deliver, the
value returned by `readRawPressure` is below `2 ^ (16 + oss)`; it fits in 19
bits, and in 17 bits for the configured `OSS = 1`. -/
theorem rawPressure_width (oss : Int) (b : Bus) (hoss : 0 ≤ oss ∧ oss ≤ 3) :
    ∃ v b1, readRawPressure oss b = .ok (v, b1) ∧
      0 ≤ v ∧ v < 2 ^ (16 + oss.toNat) ∧ v < 2 ^ 19 ∧ (oss = OSS → v < 2 ^ 17) := by
  obtain ⟨d, hd⟩ := conversionDelay_legal oss hoss
  have h := readRawPressure_eq oss b d _ hd (shiftCount_legal oss ⟨hoss.1, by omega⟩)
  refine ⟨_, _, h, ?_⟩
  rw [rawPressure_value _ _ _ _ (toU8_range _) (toU8_range _) (toU8_range _)]
  exact rawPressure_bound oss _ _ _ hoss (toU8_range _) (toU8_range _) (toU8_range _)

/-- C14 on a device on which every read fails (all three bytes `0xFF`), at the
configured oversampling. -/
theorem rawPressure_width_witness :
    ∃ v b1, readRawPressure OSS deadBus = .ok (v, b1) ∧
      0 ≤ v ∧ v < 2 ^ (16 + OSS.toNat) ∧ v < 2 ^ 19 ∧ (OSS = OSS → v < 2 ^ 17) :=
  rawPressure_width OSS deadBus (by decide)


/-! ## The quotient of `getPressure` -/

/-- Doubling a floor quotient loses at most one. -/
theorem two_mul_ediv_bounds (a d : Int) (hd : 0 < d) :
    2 * (a / d) ≤ 2 * a / d ∧ 2 * a / d ≤ 2 * (a / d) + 1 := by
  have h1 := Int.emod_add_ediv a d
  have h2 := Int.emod_nonneg a (ne_of_gt hd)
  have h3 := Int.emod_lt_of_pos a hd
  constructor
  · rw [Int.le_ediv_iff_mul_le hd]
    nlinarith
  · have : 2 * a / d < 2 * (a / d) + 1 + 1 := by
      rw [Int.ediv_lt_iff_lt_mul hd]
      nlinarith
    omega

/-- C19: for every unsigned 32-bit `b7` and every `b4 >= 2`, the quotient of
line 85 is defined and equals `2 * b7 / b4` (when `b7 < 2^31`) or
`2 * (b7 / b4)` (otherwise) in exact arithmetic, that is, neither `b7 << 1`
nor `(b7 / b4) << 1` wraps; it is an unsigned 32-bit value `q` with
`q <= floor(2 * b7 / b4) <= q + 1`, and `q = floor(2 * b7 / b4)` whenever
`b7 < 2^31`. -/
theorem pressureQuotient_tight (b7 b4 : Int) (h7 : 0 ≤ b7 ∧ b7 < 4294967296)
    (h4 : 2 ≤ b4) :
    ∃ q, pressureQuotient b7 b4 = .ok q ∧
      q = (if b7 < 2147483648 then 2 * b7 / b4 else 2 * (b7 / b4)) ∧
      (0 ≤ q ∧ q < 4294967296) ∧
      q ≤ 2 * b7 / b4 ∧ 2 * b7 / b4 ≤ q + 1 ∧
      (b7 < 2147483648 → q = 2 * b7 / b4) := by
  have hd : 0 < b4 := by omega
  have hb := two_mul_ediv_bounds b7 b4 hd
  have hq0 : 0 ≤ b7 / b4 := Int.ediv_nonneg h7.1 (by omega)
  have hq1 : 2 * (b7 / b4) ≤ b7 := by
    have : b7 / b4 * b4 ≤ b7 := Int.ediv_mul_le b7 (by omega)
    nlinarith
  have hq2 : 0 ≤ 2 * b7 / b4 := Int.ediv_nonneg (by omega) (by omega)
  have hq3 : 2 * b7 / b4 ≤ b7 := by
    have : 2 * b7 / b4 < b7 + 1 := by
      rw [Int.ediv_lt_iff_lt_mul hd]
      nlinarith
    omega
  by_cases hlt : b7 < 2147483648
  · refine ⟨2 * b7 / b4, ?_, by rw [if_pos hlt], ⟨hq2, by omega⟩, le_refl _, by omega,
      fun _ => rfl⟩
    unfold pressureQuotient
    rw [if_pos hlt]
    have hs : shlU32 b7 1 = 2 * b7 := by
      unfold shlU32 toU32; omega
    rw [hs]
    unfold cDivU
    rw [if_neg (by omega)]
  · refine ⟨2 * (b7 / b4), ?_, by rw [if_neg hlt], ⟨by omega, by omega⟩, hb.1, hb.2,
      fun h => absurd h hlt⟩
    unfold pressureQuotient
    rw [if_neg (by omega)]
    unfold cDivU
    rw [if_neg (by omega)]
    have hs : shlU32 (b7 / b4) 1 = 2 * (b7 / b4) := by
      unfold shlU32 toU32; omega
    simp only [Except.map, hs]

/-- C19 on the quotient of the datasheet example (`b7 = 1171050000`,
`b4 = 33457`). -/
theorem pressureQuotient_tight_witness :
    ∃ q, pressureQuotient 1171050000 33457 = .ok q ∧
      q = (if (1171050000 : Int) < 2147483648 then 2 * 1171050000 / 33457
           else 2 * (1171050000 / 33457)) ∧
      (0 ≤ q ∧ q < 4294967296) ∧
      q ≤ 2 * 1171050000 / 33457 ∧ 2 * 1171050000 / 33457 ≤ q + 1 ∧
      ((1171050000 : Int) < 2147483648 → q = 2 * 1171050000 / 33457) :=
  pressureQuotient_tight 1171050000 33457 (by decide) (by decide)

/-! ## Temperature compensation without overflow -/

/-- C20: for every raw temperature in `0..65535` and every calibration set
with `AC6` in `0..65535`, `AC5` in `0..32767`, `MC` and `MD` in
`-32768..32767` and `x1 + MD != 0`, every intermediate of the temperature
formula evaluated in unbounded integers (the difference, the product, `x1`,
`MC << 11`, the divisor, `x2`, `b5`, `b5 + 8`, `(b5 + 8) >> 4`) is a value of
the type `int`, and the 32-bit code returns exactly the unbounded `b5`;
`getTemperature` returns the unbounded `((b5 + 8) >> 4) / 10`. -/
theorem compensateTemperature_overflow_free (cal : calibrationData) (ut : Int)
    (hut : 0 ≤ ut ∧ ut ≤ 65535) (h6 : 0 ≤ cal.ac6 ∧ cal.ac6 ≤ 65535)
    (h5 : 0 ≤ cal.ac5 ∧ cal.ac5 ≤ 32767) (hmc : -32768 ≤ cal.mc ∧ cal.mc ≤ 32767)
    (hmd : -32768 ≤ cal.md ∧ cal.md ≤ 32767) (hne : exactX1 cal ut + cal.md ≠ 0) :
    (inS32 (ut - cal.ac6) ∧ inS32 ((ut - cal.ac6) * cal.ac5) ∧ inS32 (exactX1 cal ut) ∧
      inS32 (cal.mc * 2 ^ 11) ∧ inS32 (exactX1 cal ut + cal.md) ∧
      inS32 (exactX2 cal ut) ∧ inS32 (exactB5 cal ut) ∧ inS32 (exactB5 cal ut + 8) ∧
      inS32 (sar (exactB5 cal ut + 8) 4)) ∧
    compensateTemperatureOf cal ut = .ok (exactB5 cal ut) ∧
    (∀ (hiFirst : Bool) (b : Bus), (readRawTemperature hiFirst b).1 = ut →
      compensateTemperature hiFirst cal b
        = .ok (exactB5 cal ut, (readRawTemperature hiFirst b).2) ∧
      getTemperature hiFirst cal b
        = .ok (((sar (exactB5 cal ut + 8) 4 : Int) : ℚ) / 10,
            (readRawTemperature hiFirst b).2)) := by
  have hd : -65535 ≤ ut - cal.ac6 ∧ ut - cal.ac6 ≤ 65535 := by omega
  have hp : -2147385345 ≤ (ut - cal.ac6) * cal.ac5 ∧ (ut - cal.ac6) * cal.ac5 ≤ 2147385345 := by
    constructor <;> nlinarith
  have hx1 : -65536 ≤ exactX1 cal ut ∧ exactX1 cal ut ≤ 65535 := by
    unfold exactX1
    rw [sar_eq_div]
    norm_num
    omega
  have hnum : -67108864 ≤ cal.mc * 2 ^ 11 ∧ cal.mc * 2 ^ 11 ≤ 67108864 := by
    norm_num; omega
  have habs : |cal.mc * 2 ^ 11| ≤ 67108864 := abs_le.mpr hnum
  have hq := tdiv_abs_le (cal.mc * 2 ^ 11) (exactX1 cal ut + cal.md)
  have hx2 : -67108864 ≤ exactX2 cal ut ∧ exactX2 cal ut ≤ 67108864 := by
    unfold exactX2
    constructor <;> linarith [hq.1, hq.2]
  have hb5 : exactB5 cal ut = exactX1 cal ut + exactX2 cal ut := rfl
  have hr : inS32 (sar (exactB5 cal ut + 8) 4) := by
    unfold inS32
    rw [sar_eq_div, hb5]
    norm_num
    omega
  have hcode : compensateTemperatureOf cal ut = .ok (exactB5 cal ut) := by
    have e1 : sar (mul32 (sub32 (toS32 ut) cal.ac6) cal.ac5) 15 = exactX1 cal ut := by
      unfold mul32 sub32 exactX1
      rw [toS32_toS32_sub, toS32_toS32_mul, toS32_of_range] <;> omega
    have e2 : shl32 cal.mc 11 = cal.mc * 2 ^ 11 := by
      unfold shl32
      apply toS32_of_range <;> omega
    have e3 : add32 (exactX1 cal ut) cal.md = exactX1 cal ut + cal.md := by
      unfold add32
      apply toS32_of_range <;> omega
    unfold compensateTemperatureOf
    simp only [e1, e2, e3]
    unfold cDiv
    rw [if_neg hne, if_neg (by intro h; have := h.1; omega)]
    simp only
    rw [hb5]
    unfold add32
    rw [toS32_of_range]
    · rfl
    · unfold exactX2 at hx2; omega
    · unfold exactX2 at hx2; omega
  refine ⟨⟨?_, ?_, ?_, ?_, ?_, ?_, ?_, ?_, hr⟩, hcode, ?_⟩
  · unfold inS32; omega
  · unfold inS32; omega
  · unfold inS32; omega
  · unfold inS32; omega
  · unfold inS32; omega
  · unfold inS32; omega
  · unfold inS32; omega
  · unfold inS32; omega
  · intro hiFirst b hb
    rw [← hb] at hcode
    refine ⟨hb ▸ compensateTemperature_of_ok hiFirst cal b _ hcode, ?_⟩
    rw [getTemperature_of_ok hiFirst cal b _ hcode, hb]
    have h8 : add32 (exactB5 cal ut) 8 = exactB5 cal ut + 8 := by
      unfold add32
      apply toS32_of_range <;> omega
    rw [h8]

/-- C20 on the datasheet vector: the compensation in unbounded integers gives
`b5 = 2400`, and so does the code. -/
theorem compensateTemperature_overflow_free_witness :
    compensateTemperatureOf datasheetCal 27898 = .ok (exactB5 datasheetCal 27898) ∧
    exactB5 datasheetCal 27898 = 2400 :=
  ⟨(compensateTemperature_overflow_free datasheetCal 27898 (by decide) (by decide)
      (by decide) (by decide) (by decide) (by decide)).2.1, by decide⟩


/-! ## Oversampling settings outside `0..3` -/

theorem readRawPressure_eq_nowait (oss : Int) (b : Bus) (c : Nat)
    (hd : conversionDelay oss = none) (hc : shiftCount (sub32 8 oss) = .ok c) :
    readRawPressure oss b =
      .ok (shrU32 (orU32 (orU32
            (shlU32 (toU8 (b.respond (b.trace ++ [Event.write 0xF4 (add32 0x34 (shl32 oss 6))])
              0xF6)) 16)
            (shlU32 (toU8 (b.respond (b.trace ++ [Event.write 0xF4 (add32 0x34 (shl32 oss 6)),
              Event.read 0xF6]) 0xF7)) 8))
            (toU8 (b.respond (b.trace ++ [Event.write 0xF4 (add32 0x34 (shl32 oss 6)),
              Event.read 0xF6, Event.read 0xF7]) 0xF8))) c,
        { respond := b.respond
          trace := b.trace ++ [Event.write 0xF4 (add32 0x34 (shl32 oss 6)),
            Event.read 0xF6, Event.read 0xF7, Event.read 0xF8] }) := by
  unfold readRawPressure
  simp only [hd, hc, wiringPiI2CWriteReg8, wiringPiI2CReadReg8, List.append_assoc,
    List.singleton_append, List.cons_append, List.nil_append]

theorem conversionDelay_none (oss : Int) (h : oss < 0 ∨ 3 < oss) :
    conversionDelay oss = none := by
  unfold conversionDelay
  rw [if_neg (by omega), if_neg (by omega), if_neg (by omega), if_neg (by omega)]

theorem pressureQuotient_error (b7 b4 : Int) (u : UB)
    (h : pressureQuotient b7 b4 = .error u) : u = UB.divisionByZero := by
  unfold pressureQuotient cDivU at h
  by_cases h4 : b4 = 0
  · simp only [h4, if_true, Except.map, ite_self] at h
    injection h with h
    exact h.symm
  · simp only [h4, if_false, Except.map] at h
    split_ifs at h

theorem getPressureOf_error (oss : Int) (cal : calibrationData) (up b5 : Int) (u : UB)
    (hoss : 0 ≤ oss ∧ oss < 32) (h : getPressureOf oss cal up b5 = .error u) :
    u = UB.divisionByZero := by
  have hs : shiftCount oss = .ok oss.toNat := by
    unfold shiftCount
    rw [if_pos hoss]
  unfold getPressureOf at h
  simp only [hs] at h
  split at h
  · rename_i u2 hq
    injection h with h
    subst h
    exact pressureQuotient_error _ _ _ hq
  · exact absurd h (by simp)

/-- C12, as the code behaves: no oversampling setting is rejected.  For `oss`
in `4..8`, `readRawPressure` still writes the trigger `0x34 + (oss << 6)` to
`0xF4`, requests no wait (the `switch` has no matching `case`), reads `0xF6`,
`0xF7`, `0xF8` and returns `((b0 << 16) | (b1 << 8) | b2) >> (8 - oss)` as if
the setting were legal; the compensation of `getPressure` then runs with the
shifts `<< oss` and `50000 >> oss`, and can only stop on a zero divisor. -/
theorem readRawPressure_accepts_any_setting (oss : Int) (b : Bus) (b0 b1 b2 : Int)
    (hoss : 4 ≤ oss ∧ oss ≤ 8)
    (h0 : 0 ≤ b0 ∧ b0 ≤ 255) (h1 : 0 ≤ b1 ∧ b1 ≤ 255) (h2 : 0 ≤ b2 ∧ b2 ≤ 255)
    (hr0 : b.respond (b.trace ++ [Event.write 0xF4 (0x34 + oss * 2 ^ 6)]) 0xF6 = b0)
    (hr1 : b.respond (b.trace ++ [Event.write 0xF4 (0x34 + oss * 2 ^ 6),
      Event.read 0xF6]) 0xF7 = b1)
    (hr2 : b.respond (b.trace ++ [Event.write 0xF4 (0x34 + oss * 2 ^ 6),
      Event.read 0xF6, Event.read 0xF7]) 0xF8 = b2) :
    conversionDelay oss = none ∧
    readRawPressure oss b =
      .ok ((b0 * 65536 + b1 * 256 + b2) / 2 ^ (8 - oss).toNat,
        { respond := b.respond
          trace := b.trace ++ [Event.write 0xF4 (0x34 + oss * 2 ^ 6),
            Event.read 0xF6, Event.read 0xF7, Event.read 0xF8] }) ∧
    (∀ (cal : calibrationData) (up b5 : Int) (u : UB),
      getPressureOf oss cal up b5 = .error u → u = UB.divisionByZero) := by
  have hd := conversionDelay_none oss (Or.inr (by omega))
  refine ⟨hd, ?_, fun cal up b5 u h => getPressureOf_error oss cal up b5 u (by omega) h⟩
  rw [readRawPressure_eq_nowait oss b _ hd (shiftCount_legal oss (by omega)),
    pressureCommand_eq oss (by omega), hr0, hr1, hr2]
  have e8 : ∀ x : Int, 0 ≤ x ∧ x ≤ 255 → toU8 x = x := by
    intro x hx; unfold toU8; omega
  rw [e8 b0 h0, e8 b1 h1, e8 b2 h2, rawPressure_value b0 b1 b2 _ h0 h1 h2]

/-- C12 as the code behaves, at `oss = 4` on the datasheet sensor (bytes
`0x5D`, `0x23`, `0x00`): the raw value is `0x5D2300 >> 4 = 381488`. -/
theorem readRawPressure_accepts_any_setting_witness :
    (readRawPressure 4 datasheetSensor).map Prod.fst = .ok 381488 := by
  rw [(readRawPressure_accepts_any_setting 4 datasheetSensor 0x5D 0x23 0x00 (by decide)
    (by decide) (by decide) (by decide) (by decide) (by decide) (by decide)).2.1]
  decide

/-- C12 fails as stated: with the setting 4, outside `0..3`, `readRawPressure`
issues the trigger write, requests no wait and returns the raw value 381488,
and `getPressure` returns a pressure, 69963 Pa; nothing is rejected. -/
theorem oversampling_not_validated :
    (readRawPressure 4 datasheetSensor).map (fun r => (r.1, r.2.trace))
      = .ok (381488, [Event.write 0xF4 308, Event.read 0xF6, Event.read 0xF7,
          Event.read 0xF8]) ∧
    (getPressure 4 true datasheetCal datasheetSensor).map Prod.fst = .ok 69963 := by
  refine ⟨by decide, by decide⟩


/-! ## The loop of `main` -/

theorem mainLoop_zero (pow : ℚ → ℚ → ℚ) (oss : Int) (hiFirst : Bool)
    (regs : RegisterMap) (fd : Int) (b : Bus) (out : List OutputLine) :
    mainLoop pow oss hiFirst regs fd 0 b out = .ok (decide (¬ fd > 0), b, out) := rfl

theorem mainLoop_succ (pow : ℚ → ℚ → ℚ) (oss : Int) (hiFirst : Bool)
    (regs : RegisterMap) (fd : Int) (fuel : Nat) (b : Bus) (out : List OutputLine) :
    mainLoop pow oss hiFirst regs fd (fuel + 1) b out =
      if fd > 0 then
        match loopBody pow oss hiFirst regs b out with
        | .error u => .error u
        | .ok (b, out) => mainLoop pow oss hiFirst regs fd fuel b out
      else .ok (true, b, out) := rfl

/-- C17: when `wiringPiI2CSetup` returns no positive handle, `main` returns
without running the loop body, whatever the number of iterations observed:
the bus is left as it was (no calibration read, no trigger write) and no line
is printed.  With a positive handle the loop is never left: each observed
iteration runs the loop body. -/
theorem main_without_handle (pow : ℚ → ℚ → ℚ) (oss : Int) (hiFirst : Bool)
    (regs : RegisterMap) (fd : Int) (fuel : Nat) (b : Bus) (hfd : fd ≤ 0) :
    main pow oss hiFirst regs fd fuel b = .ok (true, b, []) ∧
    (∀ fd2 : Int, 0 < fd2 →
      main pow oss hiFirst regs fd2 0 b = .ok (false, b, []) ∧
      main pow oss hiFirst regs fd2 (fuel + 1) b =
        match loopBody pow oss hiFirst regs b [] with
        | .error u => .error u
        | .ok (b1, out) => mainLoop pow oss hiFirst regs fd2 fuel b1 out) := by
  constructor
  · unfold main
    cases fuel with
    | zero =>
      have : decide (¬ fd > 0) = true := by
        rw [decide_eq_true_eq]; omega
      rw [mainLoop_zero, this]
    | succ n =>
      rw [mainLoop_succ, if_neg (by omega)]
  · intro fd2 h2
    constructor
    · unfold main
      have : decide (¬ fd2 > 0) = false := by
        rw [decide_eq_false_iff_not]; omega
      rw [mainLoop_zero, this]
    · unfold main
      rw [mainLoop_succ, if_pos h2]

/-- C17 with the handle `-1` that `wiringPiI2CSetup` returns on failure, and
with the valid handle 3 before any iteration is observed. -/
theorem main_without_handle_witness :
    main powLinear OSS true bmp180Registers (-1) 5 datasheetSensor
      = .ok (true, datasheetSensor, []) ∧
    main powLinear OSS true bmp180Registers 3 0 datasheetSensor
      = .ok (false, datasheetSensor, []) :=
  ⟨(main_without_handle powLinear OSS true bmp180Registers (-1) 5 datasheetSensor
      (by decide)).1,
   ((main_without_handle powLinear OSS true bmp180Registers (-1) 5 datasheetSensor
      (by decide)).2 3 (by decide)).1⟩

/-! ## The temperature sample used by `getPressure` -/

theorem readRawTemperature_trace (hiFirst : Bool) (b : Bus) :
    (readRawTemperature hiFirst b).2.trace =
      b.trace ++ [Event.write 0xF4 0x2E, Event.sleep 4500] ++
        (if hiFirst then [Event.read 0xF6, Event.read 0xF7]
         else [Event.read 0xF7, Event.read 0xF6]) := by
  have h7 : add32 0xF6 1 = 0xF7 := by decide
  rw [readRawTemperature_eq]
  cases hiFirst
  · simp only [read16_false, h7, List.append_assoc, List.cons_append, List.nil_append,
      Bool.false_eq_true, if_false]
  · simp only [read16_true, h7, List.append_assoc, List.cons_append, List.nil_append,
      if_true]

/-- C18: after `readRawPressure` has returned, `getPressure` starts a
temperature conversion of its own (write of `0x2E` to `0xF4`, wait, reads of
`0xF6`, `0xF7`) and computes the pressure from the `b5` of that fresh raw
temperature.  And there is a bus (a sensor warming up between two
conversions) on which, within one iteration of the loop of `main`, the `b5`
behind the reported temperature (2400) differs from the `b5` behind the
reported pressure (2530). -/
theorem getPressure_resamples_temperature (oss : Int) (hiFirst : Bool)
    (cal : calibrationData) (b b1 : Bus) (up : Int)
    (hup : readRawPressure oss b = .ok (up, b1)) :
    getPressure oss hiFirst cal b =
      (match compensateTemperatureOf cal (readRawTemperature hiFirst b1).1 with
       | .error u => .error u
       | .ok b5 =>
         (getPressureOf oss cal up b5).map
           (fun p => (p, (readRawTemperature hiFirst b1).2))) ∧
    (readRawTemperature hiFirst b1).2.trace =
      b1.trace ++ [Event.write 0xF4 0x2E, Event.sleep 4500] ++
        (if hiFirst then [Event.read 0xF6, Event.read 0xF7]
         else [Event.read 0xF7, Event.read 0xF6]) ∧
    (∃ (bus b2 b3 b4 b6 : Bus) (cal2 : calibrationData) (up2 b5T b5P : Int),
      calibrate true bmp180Registers bus = (cal2, b2) ∧
      compensateTemperature true cal2 b2 = .ok (b5T, b3) ∧
      readRawPressure OSS b3 = .ok (up2, b4) ∧
      compensateTemperature true cal2 b4 = .ok (b5P, b6) ∧
      b5T ≠ b5P) := by
  refine ⟨?_, readRawTemperature_trace hiFirst b1, ?_⟩
  · unfold getPressure
    rw [hup]
    dsimp only
    rw [compensateTemperature_eq]
    cases compensateTemperatureOf cal (readRawTemperature hiFirst b1).1 with
    | error u => rfl
    | ok b5 =>
      dsimp only [Except.map]
      cases getPressureOf oss cal up b5 <;> rfl
  · have hp := readRawPressure_eq OSS
      (readRawTemperature true (calibrate true bmp180Registers driftingBus).2).2 7500 7
      rfl rfl
    refine ⟨driftingBus, (calibrate true bmp180Registers driftingBus).2, _, _, _,
      (calibrate true bmp180Registers driftingBus).1, _, 2400, 2530, rfl,
      compensateTemperature_of_ok true _ _ 2400 (by decide), hp,
      compensateTemperature_of_ok true _ _ 2530 (by decide), by decide⟩

/-- C18 on the datasheet sensor, after its pressure conversion was read. -/
theorem getPressure_resamples_temperature_witness :
    (readRawTemperature true datasheetBusAfterPressure).2.trace =
      datasheetBusAfterPressure.trace ++ [Event.write 0xF4 0x2E, Event.sleep 4500] ++
        (if true then [Event.read 0xF6, Event.read 0xF7]
         else [Event.read 0xF7, Event.read 0xF6]) :=
  (getPressure_resamples_temperature 0 true datasheetCal datasheetBus
    datasheetBusAfterPressure 23843 rfl).2.1

/-! ## A cycle on a failing bus -/

theorem calibrate_dead (hiFirst : Bool) (r : RegisterMap) (b : Bus)
    (hdev : ∀ h reg, b.respond h reg = -1) :
    ∃ b1 : Bus, calibrate hiFirst r b = (allOnesCal, b1) ∧
      ∀ h reg, b1.respond h reg = -1 := by
  obtain ⟨c1, e1, d1⟩ := read16_dead_pair hiFirst b r.AC1_REG hdev
  obtain ⟨c2, e2, d2⟩ := read16_dead_pair hiFirst c1 r.AC2_REG d1
  obtain ⟨c3, e3, d3⟩ := read16_dead_pair hiFirst c2 r.AC3_REG d2
  obtain ⟨c4, e4, d4⟩ := read16_dead_pair hiFirst c3 r.AC4_REG d3
  obtain ⟨c5, e5, d5⟩ := read16_dead_pair hiFirst c4 r.AC5_REG d4
  obtain ⟨c6, e6, d6⟩ := read16_dead_pair hiFirst c5 r.AC6_REG d5
  obtain ⟨c7, e7, d7⟩ := read16_dead_pair hiFirst c6 r.B1_REG d6
  obtain ⟨c8, e8, d8⟩ := read16_dead_pair hiFirst c7 r.B2_REG d7
  obtain ⟨c9, e9, d9⟩ := read16_dead_pair hiFirst c8 r.MB_REG d8
  obtain ⟨c10, e10, d10⟩ := read16_dead_pair hiFirst c9 r.MC_REG d9
  obtain ⟨c11, e11, d11⟩ := read16_dead_pair hiFirst c10 r.MD_REG d10
  refine ⟨c11, ?_, d11⟩
  simp only [calibrate, e1, e2, e3, e4, e5, e6, e7, e8, e9, e10, e11]
  rfl

theorem compensateTemperature_dead (hiFirst : Bool) (b : Bus)
    (hdev : ∀ h reg, b.respond h reg = -1) :
    ∃ b1 : Bus, compensateTemperature hiFirst allOnesCal b = .ok (2048, b1) ∧
      ∀ h reg, b1.respond h reg = -1 := by
  obtain ⟨c1, e1, d1⟩ := read16_dead_pair hiFirst
    { respond := b.respond
      trace := b.trace ++ [Event.write 0xF4 0x2E, Event.sleep 4500] } 0xF6 hdev
  have hr : readRawTemperature hiFirst b = (65535, c1) := by
    rw [readRawTemperature_eq, e1]
    rfl
  refine ⟨c1, ?_, d1⟩
  have hc : compensateTemperatureOf allOnesCal (readRawTemperature hiFirst b).1
      = .ok 2048 := by
    rw [hr]
    show compensateTemperatureOf allOnesCal 65535 = .ok 2048
    decide
  have h := compensateTemperature_of_ok hiFirst allOnesCal b 2048 hc
  rw [hr] at h
  exact h

theorem readRawPressure_dead (b : Bus) (hdev : ∀ h reg, b.respond h reg = -1) :
    ∃ b1 : Bus, readRawPressure OSS b = .ok (131071, b1) ∧
      ∀ h reg, b1.respond h reg = -1 := by
  have h := readRawPressure_eq OSS b 7500 7 rfl rfl
  rw [hdev, hdev, hdev] at h
  exact ⟨_, h, hdev⟩

theorem getPressure_dead (hiFirst : Bool) (b : Bus)
    (hdev : ∀ h reg, b.respond h reg = -1) :
    ∃ b1 : Bus, getPressure OSS hiFirst allOnesCal b = .ok (99977, b1) ∧
      ∀ h reg, b1.respond h reg = -1 := by
  obtain ⟨c1, e1, d1⟩ := readRawPressure_dead b hdev
  obtain ⟨c2, e2, d2⟩ := compensateTemperature_dead hiFirst c1 d1
  refine ⟨c2, ?_, d2⟩
  have hp : getPressureOf OSS allOnesCal 131071 2048 = .ok 99977 := by decide
  unfold getPressure
  rw [e1]
  dsimp only
  rw [e2]
  dsimp only
  rw [hp]

theorem loopBody_dead (pow : ℚ → ℚ → ℚ) (hiFirst : Bool) (regs : RegisterMap) (b : Bus)
    (out : List OutputLine) (hdev : ∀ h reg, b.respond h reg = -1) :
    ∃ b1 : Bus, loopBody pow OSS hiFirst regs b out =
      .ok (b1, out ++ [{ T := 64 / 5, P := 99977, a := getAltitudeOf pow 99977 }]) := by
  obtain ⟨c1, e1, d1⟩ := calibrate_dead hiFirst regs b hdev
  obtain ⟨c2, e2, d2⟩ := compensateTemperature_dead hiFirst c1 d1
  obtain ⟨c3, e3, d3⟩ := getPressure_dead hiFirst c2 d2
  obtain ⟨c4, e4, -⟩ := getPressure_dead hiFirst c3 d3
  refine ⟨c4, ?_⟩
  have hT : getTemperature hiFirst allOnesCal c1 = .ok (64 / 5, c2) := by
    unfold getTemperature
    rw [e2]
    dsimp only
    rw [show sar (add32 2048 8) 4 = 128 from by decide]
    norm_num
  have hA : getAltitude pow OSS hiFirst allOnesCal c3
      = .ok (getAltitudeOf pow 99977, c4) := by
    unfold getAltitude
    rw [e4]
    norm_num
  unfold loopBody
  rw [e1]
  dsimp only
  rw [hT]
  dsimp only
  rw [e3]
  dsimp only
  rw [hA]
  norm_num

theorem loopBody_appends (pow : ℚ → ℚ → ℚ) (oss : Int) (hiFirst : Bool)
    (regs : RegisterMap) (b b1 : Bus) (out out1 : List OutputLine)
    (h : loopBody pow oss hiFirst regs b out = .ok (b1, out1)) :
    ∃ line : OutputLine, out1 = out ++ [line] := by
  unfold loopBody at h
  dsimp only at h
  split at h
  · exact absurd h (by simp)
  · split at h
    · exact absurd h (by simp)
    · split at h
      · exact absurd h (by simp)
      · injection h with h
        injection h with h1 h2
        exact ⟨_, h2.symm⟩

/-- C11, as the code behaves: the loop body has no failure detection.  Every
iteration that completes prints exactly one output triple, whatever register
reads failed during it; on a bus on which every read fails, the iteration at
the configured oversampling completes and prints `T = 12.8`,
`Pressure = 99977` and the altitude computed from 99977. -/
theorem loopBody_prints_despite_failures (pow : ℚ → ℚ → ℚ) (oss : Int) (hiFirst : Bool)
    (regs : RegisterMap) (b : Bus) (out : List OutputLine) :
    (∀ (b1 : Bus) (out1 : List OutputLine),
      loopBody pow oss hiFirst regs b out = .ok (b1, out1) →
      ∃ line : OutputLine, out1 = out ++ [line]) ∧
    ((∀ h reg, b.respond h reg = -1) →
      ∃ b1 : Bus, loopBody pow OSS hiFirst regs b out =
        .ok (b1, out ++ [{ T := 64 / 5, P := 99977, a := getAltitudeOf pow 99977 }])) :=
  ⟨fun b1 out1 h => loopBody_appends pow oss hiFirst regs b b1 out out1 h,
   fun hdev => loopBody_dead pow hiFirst regs b out hdev⟩

/-- C11 as the code behaves, on a device on which every read fails. -/
theorem loopBody_prints_despite_failures_witness :
    ∃ b1 : Bus, loopBody powLinear OSS true bmp180Registers deadBus [] =
      .ok (b1, [] ++ [{ T := 64 / 5, P := 99977, a := getAltitudeOf powLinear 99977 }]) :=
  (loopBody_prints_despite_failures powLinear OSS true bmp180Registers deadBus []).2
    (fun _ _ => rfl)

/-- C11 fails as stated: on a device on which every register read fails, one
iteration of the loop still prints an output triple, `T = 12.8`,
`Pressure = 99977` and an altitude. -/
theorem cycle_prints_on_failing_bus :
    (∀ h reg, deadBus.respond h reg = -1) ∧
    ∃ b1 : Bus, loopBody powLinear OSS false bmp180Registers deadBus [] =
      .ok (b1, [{ T := 64 / 5, P := 99977, a := getAltitudeOf powLinear 99977 }]) :=
  ⟨fun _ _ => rfl, loopBody_dead powLinear false bmp180Registers deadBus [] (fun _ _ => rfl)⟩


/-! ## The altitude -/

theorem roundDouble_zero : roundDouble 0 = 0 := by
  unfold roundDouble
  rw [if_pos rfl]

theorem roundEven_intCast (n : Int) : roundEven (n : ℚ) = n := by
  unfold roundEven
  simp

theorem roundDouble_one : roundDouble 1 = 1 := by
  unfold roundDouble
  rw [if_neg one_ne_zero]
  have he : Int.log 2 |(1 : ℚ)| - 52 = -52 := by
    rw [abs_one, Int.log_one_right]
    norm_num
  simp only [he]
  have hm : (1 : ℚ) / 2 ^ (-52 : Int) = ((4503599627370496 : Int) : ℚ) := by
    rw [zpow_neg]
    norm_num
  rw [hm, roundEven_intCast, zpow_neg]
  norm_num

/-- C15: at the pressure 101325 Pa the formula of `getAltitude` evaluates to
exactly 0.0 in `double` arithmetic: `101325.0 / 101325.0` is exactly 1,
`pow(1, y)` is exactly 1 (as the C standard requires of `pow` for every `y`),
`1.0 - 1.0` and `44330.0 * 0.0` are exactly 0.  Hence `getAltitude` returns
0.0 whenever its call of `getPressure` returns 101325. -/
theorem getAltitude_sea_level (pow : ℚ → ℚ → ℚ) (hpow : ∀ y, pow 1 y = 1) :
    getAltitudeOf pow 101325 = 0 ∧
    (∀ (oss : Int) (hiFirst : Bool) (cal : calibrationData) (b b1 : Bus),
      getPressure oss hiFirst cal b = .ok (101325, b1) →
      getAltitude pow oss hiFirst cal b = .ok (0, b1)) := by
  have h0 : getAltitudeOf pow 101325 = 0 := by
    unfold getAltitudeOf altitudeBase fdiv fsub fmul
    rw [div_self (by norm_num), roundDouble_one, hpow, sub_self, roundDouble_zero,
      mul_zero, roundDouble_zero]
  refine ⟨h0, ?_⟩
  intro oss hiFirst cal b b1 hp
  unfold getAltitude
  rw [hp]
  dsimp only
  have : ((101325 : Int) : ℚ) = 101325 := by norm_num
  rw [this, h0]

/-- C15 with the stand-in `powLinear`, which returns 1 at `x = 1`, and on a
sensor whose compensated pressure is 101325 Pa. -/
theorem getAltitude_sea_level_witness :
    getAltitudeOf powLinear 101325 = 0 ∧
    ∃ b1 : Bus, getAltitude powLinear 2 true datasheetCal seaLevelBus = .ok (0, b1) := by
  have h := getAltitude_sea_level powLinear (fun y => by unfold powLinear; ring)
  have hp := readRawPressure_eq 2 seaLevelBus 13500 6 rfl rfl
  exact ⟨h.1, _, h.2 2 true datasheetCal seaLevelBus _
    (getPressure_of_ok 2 true datasheetCal seaLevelBus _ _ 2400 101325 hp
      (by decide) (by decide))⟩


/-! ## Rounding errors of `double` arithmetic -/

theorem roundEven_err (m : ℚ) : |(roundEven m : ℚ) - m| ≤ 1 / 2 := by
  have h1 := Int.floor_le m
  have h2 := Int.lt_floor_add_one m
  unfold roundEven
  dsimp only
  rw [abs_le]
  split_ifs <;> push_cast <;> constructor <;> linarith

/-- The relative error of one rounding is at most `2 ^ (-53)`. -/
theorem roundDouble_err (q : ℚ) : |roundDouble q - q| ≤ |q| / 2 ^ 53 := by
  by_cases hq : q = 0
  · subst hq
    rw [roundDouble_zero]
    simp
  · have hpos : 0 < |q| := abs_pos.mpr hq
    have hlog : ((2 : ℕ) : ℚ) ^ Int.log 2 |q| ≤ |q| := Int.zpow_log_le_self (by norm_num) hpos
    have hP : (0 : ℚ) < 2 ^ (Int.log 2 |q| - 52) := by positivity
    have hsplit : (2 : ℚ) ^ (Int.log 2 |q| - 52) = 2 ^ Int.log 2 |q| / 2 ^ 52 := by
      rw [zpow_sub₀ (by norm_num)]
      norm_num
    have hr := roundEven_err (q / 2 ^ (Int.log 2 |q| - 52))
    unfold roundDouble
    rw [if_neg hq]
    dsimp only
    have e : (roundEven (q / 2 ^ (Int.log 2 |q| - 52)) : ℚ) * 2 ^ (Int.log 2 |q| - 52) - q
        = ((roundEven (q / 2 ^ (Int.log 2 |q| - 52)) : ℚ) - q / 2 ^ (Int.log 2 |q| - 52))
          * 2 ^ (Int.log 2 |q| - 52) := by
      field_simp
    rw [e, abs_mul, abs_of_pos hP]
    have h3 : |(roundEven (q / 2 ^ (Int.log 2 |q| - 52)) : ℚ) - q / 2 ^ (Int.log 2 |q| - 52)|
        * 2 ^ (Int.log 2 |q| - 52) ≤ 1 / 2 * 2 ^ (Int.log 2 |q| - 52) :=
      mul_le_mul_of_nonneg_right hr hP.le
    have h4 : (1 : ℚ) / 2 * 2 ^ (Int.log 2 |q| - 52) ≤ |q| / 2 ^ 53 := by
      rw [hsplit]
      have : ((2 : ℕ) : ℚ) = 2 := by norm_num
      rw [this] at hlog
      have h5 : (1 : ℚ) / 2 * (2 ^ Int.log 2 |q| / 2 ^ 52) = 2 ^ Int.log 2 |q| / 2 ^ 53 := by
        norm_num
        ring
      rw [h5]
      exact div_le_div_of_nonneg_right hlog (by positivity)
    exact le_trans h3 h4


theorem rpow_gap (X1 X2 Y : ℝ) (h1 : 0 < X1) (h12 : X1 ≤ X2) (h2 : X2 ≤ 1)
    (hY0 : 0 ≤ Y) (hY1 : Y ≤ 1) : Y * (X2 - X1) ≤ X2 ^ Y - X1 ^ Y := by
  have hX2 : 0 < X2 := lt_of_lt_of_le h1 h12
  have hr0 : 0 < X1 / X2 := div_pos h1 hX2
  have hr1 : X1 / X2 ≤ 1 := (div_le_one hX2).mpr h12
  have hb := rpow_one_add_le_one_add_mul_self (s := X1 / X2 - 1) (by linarith) hY0 hY1
  rw [show 1 + (X1 / X2 - 1) = X1 / X2 by ring, Real.div_rpow h1.le hX2.le] at hb
  have hpos : 0 < X2 ^ Y := Real.rpow_pos_of_pos hX2 Y
  rw [div_le_iff₀ hpos] at hb
  have hge : X2 ≤ X2 ^ Y := by
    have := Real.rpow_le_rpow_of_exponent_ge hX2 h2 hY1
    rwa [Real.rpow_one] at this
  have hX1 : X1 = X1 / X2 * X2 := by field_simp
  have hk : 0 ≤ Y * (1 - X1 / X2) := mul_nonneg hY0 (by linarith)
  have hm := mul_le_mul_of_nonneg_right hge hk
  nlinarith

theorem altitudeExponent_bounds : 19 / 100 ≤ altitudeExponent ∧ altitudeExponent ≤ 1 / 5 := by
  have hc := roundDouble_err (5255 / 1000)
  rw [abs_le] at hc
  have habs : |(5255 : ℚ) / 1000| = 5255 / 1000 := abs_of_pos (by norm_num)
  rw [habs] at hc
  have hc1 : (525 : ℚ) / 100 ≤ roundDouble (5255 / 1000) := by
    norm_num at hc ⊢; linarith [hc.1]
  have hc2 : roundDouble (5255 / 1000) ≤ (526 : ℚ) / 100 := by
    norm_num at hc ⊢; linarith [hc.2]
  have hcpos : (0 : ℚ) < roundDouble (5255 / 1000) := by linarith
  have hi1 : (1 : ℚ) / (526 / 100) ≤ 1 / roundDouble (5255 / 1000) :=
    one_div_le_one_div_of_le hcpos hc2
  have hi2 : (1 : ℚ) / roundDouble (5255 / 1000) ≤ 1 / (525 / 100) :=
    one_div_le_one_div_of_le (by norm_num) hc1
  have hy := roundDouble_err (1 / roundDouble (5255 / 1000))
  have hipos : (0 : ℚ) < 1 / roundDouble (5255 / 1000) := by positivity
  rw [abs_le, abs_of_pos hipos] at hy
  unfold altitudeExponent fdiv
  generalize (1 : ℚ) / roundDouble (5255 / 1000) = i at hi1 hi2 hy hipos ⊢
  norm_num at hi1 hi2 hy ⊢
  constructor <;> linarith [hy.1, hy.2]

theorem altitudeBase_bounds (p : Int) (h1 : 1 ≤ p) (h2 : p ≤ 101325) :
    |altitudeBase p - (p : ℚ) / 101325| ≤ 1 / 2 ^ 53 ∧
    0 < altitudeBase p ∧ altitudeBase p ≤ 1 := by
  have hp1 : (1 : ℚ) ≤ p := by exact_mod_cast h1
  have hp2 : (p : ℚ) ≤ 101325 := by exact_mod_cast h2
  have hq0 : (0 : ℚ) < (p : ℚ) / 101325 := by positivity
  have hq1 : (p : ℚ) / 101325 ≤ 1 := by
    rw [div_le_one (by norm_num)]; exact hp2
  have he := roundDouble_err ((p : ℚ) / 101325)
  rw [abs_of_pos hq0] at he
  have he2 : (p : ℚ) / 101325 / 2 ^ 53 ≤ 1 / 2 ^ 53 :=
    div_le_div_of_nonneg_right hq1 (by positivity)
  have he3 := abs_le.mp he
  unfold altitudeBase fdiv
  refine ⟨le_trans he he2, ?_, ?_⟩
  · have : (p : ℚ) / 101325 / 2 ^ 53 < (p : ℚ) / 101325 := by
      rw [div_lt_iff₀ (by positivity)]
      nlinarith
    linarith [he3.1]
  · rcases lt_or_ge p 101325 with hlt | hge
    · have hp3 : (p : ℚ) ≤ 101324 := by
        have : p ≤ 101324 := by omega
        exact_mod_cast this
      have hq2 : (p : ℚ) / 101325 ≤ 101324 / 101325 :=
        div_le_div_of_nonneg_right hp3 (by norm_num)
      have hq3 : (p : ℚ) / 101325 / 2 ^ 53 ≤ 101324 / 101325 / 2 ^ 53 :=
        div_le_div_of_nonneg_right hq2 (by positivity)
      have : (101324 : ℚ) / 101325 + 101324 / 101325 / 2 ^ 53 ≤ 1 := by norm_num
      linarith [he3.2]
    · have hp : p = 101325 := by omega
      subst hp
      have : ((101325 : Int) : ℚ) / 101325 = 1 := by norm_num
      rw [this, roundDouble_one]


/-- The value `pow` returns for a base in `(0, 1]`, when it is within `2 ^ (-21)`
of the exact power, lies in `[-2 ^ (-21), 1 + 2 ^ (-21)]`. -/
theorem pow_value_bounds (w x y : ℚ) (hx0 : 0 < x) (hx1 : x ≤ 1) (hy : 0 ≤ y)
    (hpow : |(w : ℝ) - (x : ℝ) ^ (y : ℝ)| ≤ 1 / 2 ^ 21) :
    -(1 / 2 ^ 21) ≤ w ∧ w ≤ 1 + 1 / 2 ^ 21 := by
  have hX0 : (0 : ℝ) ≤ (x : ℝ) := by exact_mod_cast hx0.le
  have hX1 : (x : ℝ) ≤ 1 := by exact_mod_cast hx1
  have hY : (0 : ℝ) ≤ (y : ℝ) := by exact_mod_cast hy
  have h0 := Real.rpow_nonneg hX0 (y : ℝ)
  have h1 := Real.rpow_le_one hX0 hX1 hY
  rw [abs_le] at hpow
  have hlo : (((-(1 / 2 ^ 21) : ℚ)) : ℝ) ≤ (w : ℝ) := by
    push_cast
    linarith [hpow.1]
  have hhi : (w : ℝ) ≤ (((1 + 1 / 2 ^ 21 : ℚ)) : ℝ) := by
    push_cast
    linarith [hpow.2]
  exact ⟨Rat.cast_le.mp hlo, Rat.cast_le.mp hhi⟩

/-- C16: for every two integer pressures `0 < p1 < p2 <= 101325` (the type of
the value `getPressure` returns), the altitude that line 96 computes in
`double` arithmetic for `p1` is strictly greater than the one for `p2`,
provided the library function `pow` is within `2 ^ (-21)` of the exact power
at the two arguments it is called with. -/
theorem getAltitude_strictly_decreasing (pow : ℚ → ℚ → ℚ) (p1 p2 : Int)
    (h1 : 0 < p1) (h12 : p1 < p2) (h2 : p2 ≤ 101325)
    (hpow1 : |((pow (altitudeBase p1) altitudeExponent : ℚ) : ℝ)
      - ((altitudeBase p1 : ℚ) : ℝ) ^ ((altitudeExponent : ℚ) : ℝ)| ≤ 1 / 2 ^ 21)
    (hpow2 : |((pow (altitudeBase p2) altitudeExponent : ℚ) : ℝ)
      - ((altitudeBase p2 : ℚ) : ℝ) ^ ((altitudeExponent : ℚ) : ℝ)| ≤ 1 / 2 ^ 21) :
    getAltitudeOf pow p2 < getAltitudeOf pow p1 := by
  obtain ⟨e1, x1pos, x1le⟩ := altitudeBase_bounds p1 (by omega) (by omega)
  obtain ⟨e2, x2pos, x2le⟩ := altitudeBase_bounds p2 (by omega) h2
  obtain ⟨y0, y1⟩ := altitudeExponent_bounds
  have hpq : (p1 : ℚ) + 1 ≤ (p2 : ℚ) := by
    have : p1 + 1 ≤ p2 := by omega
    exact_mod_cast this
  rw [abs_le] at e1 e2
  have hgapQ : 1 / 101325 - 2 / 2 ^ 53 ≤ altitudeBase p2 - altitudeBase p1 := by
    have : (p2 : ℚ) / 101325 - (p1 : ℚ) / 101325 ≥ 1 / 101325 := by
      rw [← sub_div]
      exact div_le_div_of_nonneg_right (by linarith) (by norm_num)
    linarith [e1.2, e2.1]
  have w1b := pow_value_bounds _ _ _ x1pos x1le (by linarith) hpow1
  have w2b := pow_value_bounds _ _ _ x2pos x2le (by linarith) hpow2
  -- the exact powers are separated
  have hX1 : (0 : ℝ) < ((altitudeBase p1 : ℚ) : ℝ) := by exact_mod_cast x1pos
  have hX12 : ((altitudeBase p1 : ℚ) : ℝ) ≤ ((altitudeBase p2 : ℚ) : ℝ) := by
    have : altitudeBase p1 ≤ altitudeBase p2 := by
      have : (0 : ℚ) ≤ 1 / 101325 - 2 / 2 ^ 53 := by norm_num
      linarith
    exact_mod_cast this
  have hX2 : ((altitudeBase p2 : ℚ) : ℝ) ≤ 1 := by exact_mod_cast x2le
  have hY0 : (0 : ℝ) ≤ ((altitudeExponent : ℚ) : ℝ) := by
    have : (0 : ℚ) ≤ altitudeExponent := by linarith
    exact_mod_cast this
  have hY1 : ((altitudeExponent : ℚ) : ℝ) ≤ 1 := by
    have : altitudeExponent ≤ 1 := by linarith
    exact_mod_cast this
  have hgap := rpow_gap _ _ _ hX1 hX12 hX2 hY0 hY1
  have hYlo : ((19 / 100 : ℚ) : ℝ) ≤ ((altitudeExponent : ℚ) : ℝ) := by exact_mod_cast y0
  have hgapR : (((1 / 101325 - 2 / 2 ^ 53 : ℚ)) : ℝ)
      ≤ ((altitudeBase p2 : ℚ) : ℝ) - ((altitudeBase p1 : ℚ) : ℝ) := by
    exact_mod_cast hgapQ
  have hprod : ((19 / 100 : ℚ) : ℝ) * ((1 / 101325 - 2 / 2 ^ 53 : ℚ) : ℝ)
      ≤ ((altitudeExponent : ℚ) : ℝ)
        * (((altitudeBase p2 : ℚ) : ℝ) - ((altitudeBase p1 : ℚ) : ℝ)) := by
    apply mul_le_mul hYlo hgapR _ hY0
    norm_num
  rw [abs_le] at hpow1 hpow2
  have hwR : ((19 / 100 : ℚ) : ℝ) * ((1 / 101325 - 2 / 2 ^ 53 : ℚ) : ℝ) - 2 / 2 ^ 21
      ≤ ((pow (altitudeBase p2) altitudeExponent : ℚ) : ℝ)
        - ((pow (altitudeBase p1) altitudeExponent : ℚ) : ℝ) := by
    linarith [hpow1.2, hpow2.1]
  have hwQ : (19 / 100 : ℚ) * (1 / 101325 - 2 / 2 ^ 53) - 2 / 2 ^ 21
      ≤ pow (altitudeBase p2) altitudeExponent - pow (altitudeBase p1) altitudeExponent := by
    have hc : (((19 / 100 : ℚ) * (1 / 101325 - 2 / 2 ^ 53) - 2 / 2 ^ 21 : ℚ) : ℝ)
        ≤ ((pow (altitudeBase p2) altitudeExponent
            - pow (altitudeBase p1) altitudeExponent : ℚ) : ℝ) := by
      push_cast
      push_cast at hwR
      linarith [hwR]
    exact Rat.cast_le.mp hc
  -- the roundings of the subtraction and of the multiplication
  unfold getAltitudeOf fmul fsub
  generalize pow (altitudeBase p1) altitudeExponent = w1 at w1b hwQ ⊢
  generalize pow (altitudeBase p2) altitudeExponent = w2 at w2b hwQ ⊢
  have hs1 := roundDouble_err (1 - w1)
  have hs2 := roundDouble_err (1 - w2)
  have hd1 : |1 - w1| ≤ 2 := by
    rw [abs_le]; constructor <;> linarith [w1b.1, w1b.2]
  have hd2 : |1 - w2| ≤ 2 := by
    rw [abs_le]; constructor <;> linarith [w2b.1, w2b.2]
  have hs1' : |roundDouble (1 - w1) - (1 - w1)| ≤ 2 / 2 ^ 53 :=
    le_trans hs1 (div_le_div_of_nonneg_right hd1 (by positivity))
  have hs2' : |roundDouble (1 - w2) - (1 - w2)| ≤ 2 / 2 ^ 53 :=
    le_trans hs2 (div_le_div_of_nonneg_right hd2 (by positivity))
  rw [abs_le] at hs1' hs2' hd1 hd2
  generalize roundDouble (1 - w1) = s1 at hs1' ⊢
  generalize roundDouble (1 - w2) = s2 at hs2' ⊢
  have ha1 := roundDouble_err (44330 * s1)
  have ha2 := roundDouble_err (44330 * s2)
  have hm1 : |44330 * s1| ≤ 132990 := by
    rw [abs_le]; constructor <;> linarith [hs1'.1, hs1'.2, hd1.1, hd1.2]
  have hm2 : |44330 * s2| ≤ 132990 := by
    rw [abs_le]; constructor <;> linarith [hs2'.1, hs2'.2, hd2.1, hd2.2]
  have ha1' : |roundDouble (44330 * s1) - 44330 * s1| ≤ 132990 / 2 ^ 53 :=
    le_trans ha1 (div_le_div_of_nonneg_right hm1 (by positivity))
  have ha2' : |roundDouble (44330 * s2) - 44330 * s2| ≤ 132990 / 2 ^ 53 :=
    le_trans ha2 (div_le_div_of_nonneg_right hm2 (by positivity))
  rw [abs_le] at ha1' ha2'
  norm_num at hwQ hs1' hs2' ha1' ha2' ⊢
  linarith [hs1'.1, hs1'.2, hs2'.1, hs2'.2, ha1'.1, ha1'.2, ha2'.1, ha2'.2]

/-- Near `x = 1` the first-order expansion `powLinear` is within `2 ^ (-21)` of
the exact power: here at the base computed for the pressure 101324. -/
theorem powLinear_near_sea_level :
    |((powLinear (altitudeBase ((101324 : Int) : ℚ)) altitudeExponent : ℚ) : ℝ)
      - ((altitudeBase ((101324 : Int) : ℚ) : ℚ) : ℝ) ^ ((altitudeExponent : ℚ) : ℝ)|
      ≤ 1 / 2 ^ 21 := by
  obtain ⟨e1, x1pos, x1le⟩ := altitudeBase_bounds 101324 (by norm_num) (by norm_num)
  obtain ⟨y0, y1⟩ := altitudeExponent_bounds
  rw [abs_le] at e1
  have hx_lo : (99998 : ℚ) / 100000 ≤ altitudeBase ((101324 : Int) : ℚ) := by
    norm_num at e1 ⊢
    linarith [e1.1]
  generalize altitudeBase ((101324 : Int) : ℚ) = x at x1pos x1le hx_lo ⊢
  generalize altitudeExponent = y at y0 y1 ⊢
  have hX0 : (0 : ℝ) < (x : ℝ) := by exact_mod_cast x1pos
  have hX1 : (x : ℝ) ≤ 1 := by exact_mod_cast x1le
  have hXlo : ((99998 : ℝ) / 100000) ≤ (x : ℝ) := by
    have : (((99998 : ℚ) / 100000 : ℚ) : ℝ) ≤ (x : ℝ) := Rat.cast_le.mpr hx_lo
    push_cast at this
    exact this
  have hY0 : (0 : ℝ) ≤ (y : ℝ) := by
    have : (0 : ℚ) ≤ y := by linarith
    exact_mod_cast this
  have hY1 : (y : ℝ) ≤ 1 := by
    have : y ≤ 1 := by linarith
    exact_mod_cast this
  have hpl : ((powLinear x y : ℚ) : ℝ) = 1 + (y : ℝ) * ((x : ℝ) - 1) := by
    unfold powLinear
    push_cast
    ring
  rw [hpl]
  -- upper bound of the power
  have hup := rpow_one_add_le_one_add_mul_self (s := (x : ℝ) - 1) (by linarith) hY0 hY1
  rw [show 1 + ((x : ℝ) - 1) = (x : ℝ) by ring] at hup
  -- lower bound of the power, through the reciprocal
  have hU0 : (0 : ℝ) ≤ (x : ℝ)⁻¹ - 1 := by
    have : (1 : ℝ) ≤ (x : ℝ)⁻¹ := (one_le_inv₀ hX0).mpr hX1
    linarith
  have hlow := rpow_one_add_le_one_add_mul_self (s := (x : ℝ)⁻¹ - 1) (by linarith) hY0 hY1
  rw [show 1 + ((x : ℝ)⁻¹ - 1) = (x : ℝ)⁻¹ by ring, Real.inv_rpow hX0.le] at hlow
  have hpos : 0 < (x : ℝ) ^ (y : ℝ) := Real.rpow_pos_of_pos hX0 _
  have hUle : (x : ℝ)⁻¹ - 1 ≤ (100003 / 100000) * (1 - (x : ℝ)) := by
    have hxi : (x : ℝ) * (x : ℝ)⁻¹ = 1 := mul_inv_cancel₀ (ne_of_gt hX0)
    have hinv_le : (x : ℝ)⁻¹ ≤ 100000 / 99998 := by
      rw [inv_le_comm₀ hX0 (by norm_num)]
      norm_num
      linarith
    nlinarith
  have hz : 0 < 1 + (y : ℝ) * ((x : ℝ)⁻¹ - 1) := by
    have := mul_nonneg hY0 hU0
    linarith
  have hone : 1 ≤ (x : ℝ) ^ (y : ℝ) * (1 + (y : ℝ) * ((x : ℝ)⁻¹ - 1)) := by
    have h := mul_le_mul_of_nonneg_left hlow hpos.le
    rw [mul_inv_cancel₀ (ne_of_gt hpos)] at h
    exact h
  have hP1 : (x : ℝ) ^ (y : ℝ) ≤ 1 := Real.rpow_le_one hX0.le hX1 hY0
  have hyu : (y : ℝ) * ((x : ℝ)⁻¹ - 1) ≤ (100003 / 100000) * (1 - (x : ℝ)) := by
    have h1 : (y : ℝ) * ((x : ℝ)⁻¹ - 1) ≤ 1 * ((x : ℝ)⁻¹ - 1) :=
      mul_le_mul_of_nonneg_right hY1 hU0
    linarith
  have hkey : 1 - (y : ℝ) * ((x : ℝ)⁻¹ - 1) ≤ (x : ℝ) ^ (y : ℝ) := by
    have hyu0 : 0 ≤ (y : ℝ) * ((x : ℝ)⁻¹ - 1) := mul_nonneg hY0 hU0
    nlinarith
  rw [abs_le]
  constructor
  · have : (0 : ℝ) ≤ 1 / 2 ^ 21 := by positivity
    linarith
  · have hdiff : (y : ℝ) * ((x : ℝ)⁻¹ - 1) - (y : ℝ) * (1 - (x : ℝ))
        ≤ (3 / 100000) * (1 - (x : ℝ)) := by
      have h1 : (y : ℝ) * (((x : ℝ)⁻¹ - 1) - (1 - (x : ℝ)))
          ≤ 1 * (((x : ℝ)⁻¹ - 1) - (1 - (x : ℝ))) := by
        apply mul_le_mul_of_nonneg_right hY1
        have hxi : (x : ℝ) * (x : ℝ)⁻¹ = 1 := mul_inv_cancel₀ (ne_of_gt hX0)
        nlinarith [sq_nonneg ((x : ℝ) - 1), hU0]
      linarith
    have : (3 / 100000 : ℝ) * (1 - (x : ℝ)) ≤ 1 / 2 ^ 21 := by
      norm_num
      linarith
    linarith

theorem altitudeBase_sea_level : altitudeBase ((101325 : Int) : ℚ) = 1 := by
  unfold altitudeBase fdiv
  have : ((101325 : Int) : ℚ) / 101325 = 1 := by norm_num
  rw [this, roundDouble_one]

/-- C16 for the pressures 101324 and 101325 with the stand-in `powLinear`. -/
theorem getAltitude_strictly_decreasing_witness :
    getAltitudeOf powLinear ((101325 : Int) : ℚ)
      < getAltitudeOf powLinear ((101324 : Int) : ℚ) :=
  getAltitude_strictly_decreasing powLinear 101324 101325 (by decide) (by decide)
    (by decide) powLinear_near_sea_level (by
      rw [altitudeBase_sea_level]
      unfold powLinear
      simp)

end Altimeter
